import Mathlib

/-!
Verification development for the crablang compiler front-end
(lexer, parser, scope resolver / code generator).

The definitions below are a shallow embedding of the Rust sources:
  - `src/lexer.rs`      : `Location`, `TokenType`, `Token`, `Lexer` and its
    `peek` / `consume` / `rewind` operations;
  - `src/parser.rs`     : the AST (`Term`, `RExp`, `LExp`, `Stmt`), `Display`
    implementations, operator table and the recursive-descent parser;
  - `src/main.rs`       : `CompileError`;
  - `src/codegen/codegen.rs` and `src/codegen/string_decorator.rs` :
    `Symbol`, `Env` (chained scopes), `StringDecorator` and the assembly
    emitter `Asm`;
  - `src/semantic_anal.rs` : the (stand-alone) semantic analyzer.

Representation choices, used consistently below:
  - Rust `HashMap<String, V>` becomes an association list `List (String × V)`
    where `lookup` returns the most recently inserted binding for a key and
    `insert` prepends; only `get`/`insert` are ever used by the source, so
    this is observationally identical.
  - The lexer's `source: Vec<char>` + `ch_cursor` pair is represented by the
    suffix `rest : List Char` of not-yet-consumed characters
    (`rest = source[ch_cursor..]`); `peek_ch` is `rest.head?`, `is_eof` is
    `rest.isEmpty`, and advancing `ch_cursor` is dropping the head.
  - `while` loops over source characters recurse on an explicit bound
    (`rest.length`), which is exact because every iteration consumes at
    least one character.
  - The mutually recursive parser / code-generator procedures are built as a
    family indexed by a fuel parameter (`parsers fuel`, `stmtGen fuel`,
    `expGen fuel`); running out of fuel is the distinguished error
    `outOfFuel`, and `panic!` arms of the source are the distinguished
    error `panicked`.
-/

/-! ## Lexer data model (src/lexer.rs) -/

structure Location where
  row : Nat
  col : Nat
  deriving DecidableEq, Repr

def Location.default : Location := ⟨1, 1⟩

inductive TokenType where
  | StartOfFile
  | EndOfFile
  | Ident (lexeme : String)
  | IntLiteral (lexeme : String)
  | Illegal (lexeme : String)
  | Let
  | Exit
  | If
  | Else
  | NewLine
  | Assign
  | Plus
  | Minus
  | Asterisk
  | ForwardSlash
  | Equal
  | NotEqual
  | Less
  | LessEqual
  | Greater
  | GreaterEqual
  | SCurly
  | ECurly
  | SBrace
  | EBrace
  deriving DecidableEq, Repr

structure Token where
  file : Option String
  start : Location
  tokEnd : Location
  tokentype : TokenType
  deriving DecidableEq, Repr

/-- `TOKENTYPE_MAPPINGS` from src/lexer.rs (order matters: two-character
operators come first). -/
def TOKENTYPE_MAPPINGS : List (String × TokenType) :=
  [("==", .Equal), ("!=", .NotEqual), ("<=", .LessEqual), (">=", .GreaterEqual),
   ("+", .Plus), ("-", .Minus), ("*", .Asterisk), ("/", .ForwardSlash),
   ("=", .Assign), ("<", .Less), (">", .Greater),
   ("\x7b", .SCurly), ("\x7d", .ECurly), ("(", .SBrace), (")", .EBrace),
   ("\n", .NewLine)]

structure Lexer where
  /-- the not-yet-consumed suffix of the source (`source[ch_cursor..]`). -/
  rest : List Char
  tokens : List Token
  next_token : Token
  token_cursor : Nat
  loc : Location
  emit_newline : Bool
  deriving DecidableEq, Repr

def startToken : Token :=
  { file := none, start := Location.default, tokEnd := Location.default,
    tokentype := .StartOfFile }

/-- `Lexer::new` (`newChars` takes the character list directly; `new` is the
string entry point). -/
def Lexer.newChars (source : List Char) : Lexer :=
  { rest := source
    tokens := [startToken]
    next_token := startToken
    token_cursor := 0
    loc := Location.default
    emit_newline := true }

def Lexer.new (source : String) : Lexer := Lexer.newChars source.toList

/-- `Lexer::is_eof` -/
def Lexer.is_eof (lx : Lexer) : Bool := lx.rest.isEmpty

/-- `Lexer::peek` (the source indexes `tokens[token_cursor]`, which is always
in bounds in any reachable state; out of bounds we return `startToken`). -/
def Lexer.peek (lx : Lexer) : Token := lx.tokens.getD lx.token_cursor startToken

/-- `Lexer::prepare_next_token` -/
def Lexer.prepare_next_token (lx : Lexer) : Lexer :=
  { lx with next_token := { lx.next_token with start := lx.loc } }

/-- `Lexer::set_next_token` -/
def Lexer.set_next_token (lx : Lexer) (tokentype : TokenType) : Lexer :=
  let t : Token := { lx.next_token with tokentype := tokentype, tokEnd := lx.loc }
  { lx with
    next_token := t
    tokens := lx.tokens ++ [t]
    token_cursor := lx.token_cursor + 1 }

/-- `Lexer::rewind` -/
def Lexer.rewind (lx : Lexer) : Lexer :=
  if lx.token_cursor ≤ 0 then lx
  else { lx with token_cursor := lx.token_cursor - 1 }

/-- `Lexer::consume_ch`: drop one source character and update the location
exactly as the source does (the consumed character decides a row bump, the
next character decides a column bump). -/
def Lexer.consume_ch (lx : Lexer) : Lexer :=
  match lx.rest with
  | [] => lx
  | c :: rest' =>
    let loc' :=
      if c = '\n' then { row := lx.loc.row + 1, col := 1 }
      else match rest'.head? with
        | some c' => if c' ≠ '\n' then { lx.loc with col := lx.loc.col + 1 } else lx.loc
        | none => lx.loc
    { lx with rest := rest', loc := loc' }

/-- `Lexer::try_consume_str`: consume `string` if it is a prefix of the
remaining source, otherwise leave the lexer unchanged (`none`). -/
def Lexer.try_consume_chars (lx : Lexer) : List Char → Option Lexer
  | [] => some lx
  | c :: cs =>
    match lx.rest with
    | [] => none
    | c' :: _ => if c = c' then (lx.consume_ch).try_consume_chars cs else none

def Lexer.try_consume_str (lx : Lexer) (s : String) : Option Lexer :=
  lx.try_consume_chars s.toList

/-- the loop in `Lexer::skip_whitespace`, bounded by the number of remaining
characters (each iteration consumes one). -/
def Lexer.skip_ws_fuel : Nat → Lexer → Lexer
  | 0, lx => lx
  | n + 1, lx =>
    match lx.rest.head? with
    | some ch =>
      if (ch ≠ '\n' ∧ ch.isWhitespace) ∨ (ch = '\n' ∧ ¬ lx.emit_newline) then
        Lexer.skip_ws_fuel n lx.consume_ch
      else lx
    | none => lx

def Lexer.skip_whitespace (lx : Lexer) : Lexer :=
  Lexer.skip_ws_fuel lx.rest.length lx

/-- character-collecting loop shared by `ident_or_keyword` / `int_literal`:
collect characters satisfying `p`, bounded by the remaining length. -/
def Lexer.take_chars_fuel (p : Char → Bool) : Nat → Lexer → List Char → List Char × Lexer
  | 0, lx, acc => (acc, lx)
  | n + 1, lx, acc =>
    match lx.rest.head? with
    | some ch =>
      if p ch then Lexer.take_chars_fuel p n lx.consume_ch (acc ++ [ch])
      else (acc, lx)
    | none => (acc, lx)

def Lexer.take_chars (p : Char → Bool) (lx : Lexer) : List Char × Lexer :=
  Lexer.take_chars_fuel p lx.rest.length lx []

def isIdentChar (c : Char) : Bool := c.isAlphanum || c = '_'

/-- `Lexer::ident_or_keyword` -/
def Lexer.ident_or_keyword (lx : Lexer) : Lexer :=
  let (chars, lx') := Lexer.take_chars isIdentChar lx
  let lexeme : String := ⟨chars⟩
  match lexeme with
  | "else" => lx'.set_next_token .Else
  | "exit" => lx'.set_next_token .Exit
  | "let" => lx'.set_next_token .Let
  | "if" => lx'.set_next_token .If
  | _ => lx'.set_next_token (.Ident lexeme)

/-! `CompileError` from src/main.rs. -/

/-- AST node `IntLiteral` (src/parser.rs). -/
structure IntLiteral where
  file : Option String
  start : Location
  tokEnd : Location
  lexeme : String
  deriving DecidableEq, Repr

/-- AST node `Identifier` (src/parser.rs). -/
structure Identifier where
  file : Option String
  start : Location
  tokEnd : Location
  lexeme : String
  deriving DecidableEq, Repr

mutual
/-- AST node `Term` (src/parser.rs). -/
inductive Term where
  | LExp (l : LExp)
  | IntLit (i : IntLiteral)
  | Neg (t : Term)
  | Bracketed (e : RExp)

/-- AST node `RExp` (src/parser.rs). -/
inductive RExp where
  | Term (t : Term)
  | Add (lhs rhs : RExp)
  | Sub (lhs rhs : RExp)
  | Mul (lhs rhs : RExp)
  | Div (lhs rhs : RExp)
  | Equal (lhs rhs : RExp)
  | NotEqual (lhs rhs : RExp)
  | Less (lhs rhs : RExp)
  | LessEqual (lhs rhs : RExp)
  | Greater (lhs rhs : RExp)
  | GreaterEqual (lhs rhs : RExp)

/-- AST node `LExp` (src/parser.rs). -/
inductive LExp where
  | Ident (i : Identifier)
end

/-- AST node `Stmt` (src/parser.rs); `Block` carries the `Vec<Stmt>`. -/
inductive Stmt where
  | Declare (i : Identifier)
  | Initialize (i : Identifier) (e : RExp)
  | Assign (l : LExp) (e : RExp)
  | RExp (e : RExp)
  | Block (b : List Stmt)
  | If (cond : RExp) (ifBlock : List Stmt) (elseStmt : Option Stmt)
  | Exit (e : RExp)

/-- `CompileError` from src/main.rs. -/
inductive CompileError where
  | IllegalToken (t : Token)
  | UnexpectedToken (t : Token)
  | RExpOnLHS (e : RExp)
  | ExpectedExpression (l : Location)
  | ExpectedIdent (l : Location)
  | ExpectedEBrace (l : Location)
  | ExpectedECurly (l : Location)
  | ExpectedBlock (l : Location)
  | ExpectedNewline (l : Location)
  | NotFound
  | UndeclaredIdent (i : Identifier)
  | UninitializedIdent (i : Identifier)

/-- `Lexer::int_literal`; errors are `CompileError::IllegalToken`. -/
def Lexer.int_literal (lx : Lexer) : Except CompileError Lexer :=
  let (lexeme, lx1) := Lexer.take_chars Char.isDigit lx
  let (illegal_lexeme, lx2) := Lexer.take_chars Char.isAlphanum lx1
  if illegal_lexeme.length > 0 then
    let lx3 := lx2.set_next_token (.Illegal ⟨lexeme ++ illegal_lexeme⟩)
    .error (.IllegalToken lx3.peek)
  else
    .ok (lx2.set_next_token (.IntLiteral ⟨lexeme⟩))

/-- the `for (string, tokentype) in TOKENTYPE_MAPPINGS` loop in
`Lexer::consume`. -/
def Lexer.try_mappings (lx : Lexer) : List (String × TokenType) → Option Lexer
  | [] => none
  | (s, tt) :: rest =>
    match lx.try_consume_str s with
    | some lx' => some (lx'.set_next_token tt)
    | none => lx.try_mappings rest

/-- `Lexer::consume` -/
def Lexer.consume (lx : Lexer) : Except CompileError Lexer :=
  if lx.token_cursor < lx.tokens.length - 1 then
    .ok { lx with token_cursor := lx.token_cursor + 1 }
  else
    let lx1 := lx.skip_whitespace.prepare_next_token
    match lx1.rest.head? with
    | none => .ok (lx1.set_next_token .EndOfFile)
    | some ch =>
      match lx1.try_mappings TOKENTYPE_MAPPINGS with
      | some lx2 => .ok lx2
      | none =>
        if ch.isAlpha || ch = '_' then .ok lx1.ident_or_keyword
        else if ch.isDigit then lx1.int_literal
        else
          let lx3 := (lx1.set_next_token (.Illegal ⟨[ch]⟩)).consume_ch
          .error (.IllegalToken lx3.peek)

/-! ## AST conversions and Display (src/parser.rs) -/

/-- `impl From<Token> for Identifier` (the non-identifier arm panics in the
source; we return `none` there). -/
def Identifier.fromToken (t : Token) : Option Identifier :=
  match t.tokentype with
  | .Ident lexeme => some ⟨t.file, t.start, t.tokEnd, lexeme⟩
  | _ => none

/-- `impl From<Token> for IntLiteral` (panicking arm is `none`). -/
def IntLiteral.fromToken (t : Token) : Option IntLiteral :=
  match t.tokentype with
  | .IntLiteral lexeme => some ⟨t.file, t.start, t.tokEnd, lexeme⟩
  | _ => none

/-- `impl TryFrom<Token> for Term` -/
def Term.fromToken (t : Token) : Except Token Term :=
  match t.tokentype with
  | .Ident lexeme => .ok (.LExp (.Ident ⟨t.file, t.start, t.tokEnd, lexeme⟩))
  | .IntLiteral lexeme => .ok (.IntLit ⟨t.file, t.start, t.tokEnd, lexeme⟩)
  | _ => .error t

/-- `impl TryFrom<RExp> for LExp` -/
def LExp.tryFromRExp (e : RExp) : Except RExp LExp :=
  match e with
  | .Term (.LExp lexp) => .ok lexp
  | _ => .error e

/-- `RExp::combine` (panicking arm is `none`). -/
def RExp.combine (operator : TokenType) (lhs rhs : RExp) : Option RExp :=
  match operator with
  | .Plus => some (.Add lhs rhs)
  | .Minus => some (.Sub lhs rhs)
  | .Asterisk => some (.Mul lhs rhs)
  | .ForwardSlash => some (.Div lhs rhs)
  | .Equal => some (.Equal lhs rhs)
  | .NotEqual => some (.NotEqual lhs rhs)
  | .Less => some (.Less lhs rhs)
  | .LessEqual => some (.LessEqual lhs rhs)
  | .Greater => some (.Greater lhs rhs)
  | .GreaterEqual => some (.GreaterEqual lhs rhs)
  | _ => none

/-- `is_op` (src/parser.rs) -/
def is_op (tokentype : TokenType) : Bool :=
  match tokentype with
  | .Minus | .Plus | .Asterisk | .ForwardSlash | .Equal | .NotEqual
  | .Less | .LessEqual | .Greater | .GreaterEqual => true
  | _ => false

inductive OpAssoc where
  | Left
  | Right
  deriving DecidableEq, Repr

/-- `op_prec_and_assoc` (src/parser.rs); the panicking arm (not an operator)
is mapped to `(0, Left)`, and is never reached because callers check `is_op`
first. -/
def op_prec_and_assoc (tokentype : TokenType) : Nat × OpAssoc :=
  match tokentype with
  | .Equal | .NotEqual | .Less | .LessEqual | .Greater | .GreaterEqual => (1, .Right)
  | .Minus | .Plus => (2, .Left)
  | .Asterisk | .ForwardSlash => (3, .Left)
  | _ => (0, .Left)

mutual
/-- `impl Display for Term` -/
def Term.display : Term → String
  | .LExp (.Ident ident) => ident.lexeme
  | .IntLit intlit => intlit.lexeme
  | .Neg t => "-" ++ t.display
  | .Bracketed e => "(" ++ e.display ++ ")"

/-- `impl Display for RExp` -/
def RExp.display : RExp → String
  | .Add lhs rhs => "(" ++ lhs.display ++ " + " ++ rhs.display ++ ")"
  | .Mul lhs rhs => "(" ++ lhs.display ++ " * " ++ rhs.display ++ ")"
  | .Sub lhs rhs => "(" ++ lhs.display ++ " - " ++ rhs.display ++ ")"
  | .Div lhs rhs => "(" ++ lhs.display ++ " / " ++ rhs.display ++ ")"
  | .Equal lhs rhs => "(" ++ lhs.display ++ " == " ++ rhs.display ++ ")"
  | .NotEqual lhs rhs => "(" ++ lhs.display ++ " != " ++ rhs.display ++ ")"
  | .Less lhs rhs => "(" ++ lhs.display ++ " < " ++ rhs.display ++ ")"
  | .LessEqual lhs rhs => "(" ++ lhs.display ++ " <= " ++ rhs.display ++ ")"
  | .Greater lhs rhs => "(" ++ lhs.display ++ " > " ++ rhs.display ++ ")"
  | .GreaterEqual lhs rhs => "(" ++ lhs.display ++ " >= " ++ rhs.display ++ ")"
  | .Term t => t.display
end

/-- `impl Display for LExp` -/
def LExp.display : LExp → String
  | .Ident ident => ident.lexeme

/-- `Stmt::is_if` -/
def Stmt.is_if : Stmt → Bool
  | .If _ _ _ => true
  | _ => false

mutual
/-- `impl Display for Stmt` (`write!`/`writeln!` sequence transcribed; the
panicking arms — an `else` branch that is neither a block nor an `if` —
return `none`). -/
def Stmt.display : Stmt → Option String
  | .Declare ident => some ("Declare(" ++ ident.lexeme ++ ")")
  | .Assign lexp rexp => some ("Assign(" ++ lexp.display ++ ", " ++ rexp.display ++ ")")
  | .Initialize ident rexp => some ("Initialize(" ++ ident.lexeme ++ ", " ++ rexp.display ++ ")")
  | .RExp rexp => some ("RExp(" ++ rexp.display ++ ")")
  | .Block block => do
    let inner ← Stmt.displayList block
    return "\x7b\n" ++ inner ++ "\x7d\n"
  | .If rexp ifBlock elseBlock => do
    let inner ← Stmt.displayList ifBlock
    let head := "if " ++ rexp.display ++ " \x7b\n" ++ inner ++ "\x7d"
    match elseBlock with
    | none => return head ++ "\n"
    | some elseStmt =>
      match elseStmt with
      | .Block elseStmts => do
        let einner ← Stmt.displayList elseStmts
        return head ++ " else " ++ "\x7b\n" ++ einner ++ "\x7d"
      | .If c b e => do
        let es ← Stmt.display (.If c b e)
        return head ++ " else " ++ es
      | _ => none
  | .Exit rexp => some ("Exit(" ++ rexp.display ++ ")")

/-- the `for stmt in block { writeln!(f, "{}", stmt)? }` loops inside
`Display for Stmt`. -/
def Stmt.displayList : List Stmt → Option String
  | [] => some ""
  | s :: rest => do
    let d ← Stmt.display s
    let ds ← Stmt.displayList rest
    return d ++ "\n" ++ ds
end

/-- the `for stmt in self.stmts.iter()` loop of `impl Display for Program`
(each statement followed by a newline and the dashed separator line). -/
def Program.displayEntries : List Stmt → Option String
  | [] => some ""
  | s :: rest => do
    let d ← Stmt.display s
    let ds ← Program.displayEntries rest
    return d ++ "\n" ++ "---------------------------------------------------" ++ "\n" ++ ds

/-- `impl Display for Program` -/
def Program.display (stmts : List Stmt) : Option String := do
  let body ← Program.displayEntries stmts
  return "Program \x7b\n" ++ body ++ "\x7d"

/-! ## Parser (src/parser.rs)

The parser's mutually recursive procedures are realised as a fuel-indexed
family `parsers : Nat → ParserPack`: each procedure at fuel `n + 1` calls
the procedures at fuel `n`, and at fuel `0` every procedure fails with the
distinguished `outOfFuel` error (which no actual run with sufficient fuel
produces). `panicked` stands for the source's `panic!` arms. -/

inductive PError where
  | compile (e : CompileError)
  | outOfFuel
  | panicked

/-- the parser state: the lexer plus `rexp_nesting_level` (the `Parser`
struct without the accumulated `program`, which the top-level loop threads
explicitly). -/
structure PState where
  lexer : Lexer
  rexp_nesting_level : Nat

def P (α : Type) : Type := PState → Except PError (α × PState)

instance : Monad P where
  pure a := fun s => .ok (a, s)
  bind x f := fun s =>
    match x s with
    | .ok (a, s') => f a s'
    | .error e => .error e

def P.get : P PState := fun s => .ok (s, s)

def P.set (s : PState) : P Unit := fun _ => .ok ((), s)

def P.throw {α : Type} (e : PError) : P α := fun _ => .error e

def P.throwCE {α : Type} (e : CompileError) : P α := P.throw (.compile e)

/-- `tryCatch`: run `x`; on error run the handler (the state passed to the
handler is the state from before `x`, matching the Rust pattern where a
`NotFound`-returning callee has consumed nothing). -/
def P.tryCatch {α : Type} (x : P α) (handler : PError → P α) : P α := fun s =>
  match x s with
  | .ok r => .ok r
  | .error e => handler e s

/-- the `HandleNotFound` trait from src/main.rs: turn `NotFound` into `err`,
pass everything else through. -/
def P.handleNotFound {α : Type} (x : P α) (err : CompileError) : P α :=
  P.tryCatch x (fun e =>
    match e with
    | .compile .NotFound => P.throwCE err
    | e => P.throw e)

/-- the `parse_terminal!` macro: peek, and if the token type satisfies the
pattern, consume it and return `ok token`; otherwise return `error token`
without consuming. A lexing failure inside `consume` propagates as a
`CompileError` (the macro's `?`). -/
def parseTerminal (p : TokenType → Bool) : P (Except Token Token) := do
  let st ← P.get
  let token := st.lexer.peek
  if p token.tokentype then
    match st.lexer.consume with
    | .error e => P.throwCE e
    | .ok lx' => do
      P.set { st with lexer := lx' }
      return .ok token
  else
    return .error token

def peekP : P Token := do
  let st ← P.get
  return st.lexer.peek

def consumeP : P Unit := do
  let st ← P.get
  match st.lexer.consume with
  | .error e => P.throwCE e
  | .ok lx' => P.set { st with lexer := lx' }

/-- the collection of mutually recursive parser procedures. -/
structure ParserPack where
  programLoop : List Stmt → P (List Stmt)
  stmt : P Stmt
  skipNewlines : Bool → P Bool
  ifStmt : P Stmt
  blockStmt : P Stmt
  blockLoop : List Stmt → P (List Stmt)
  exitStmt : P Stmt
  assignStmtOrRexp : P Stmt
  rexpMinPrec : Nat → P RExp
  rexpLoop : Nat → RExp → P RExp
  rexp : P RExp
  term : P Term
  declOrInit : P Stmt

def outOfFuelPack : ParserPack :=
  { programLoop := fun _ => P.throw .outOfFuel
    stmt := P.throw .outOfFuel
    skipNewlines := fun _ => P.throw .outOfFuel
    ifStmt := P.throw .outOfFuel
    blockStmt := P.throw .outOfFuel
    blockLoop := fun _ => P.throw .outOfFuel
    exitStmt := P.throw .outOfFuel
    assignStmtOrRexp := P.throw .outOfFuel
    rexpMinPrec := fun _ => P.throw .outOfFuel
    rexpLoop := fun _ _ => P.throw .outOfFuel
    rexp := P.throw .outOfFuel
    term := P.throw .outOfFuel
    declOrInit := P.throw .outOfFuel }

/-- the loop of `Parser::parse_program`: skip newlines, parse a statement
(`NotFound` ends the loop, any other error aborts), then require a newline
(continue) or end-of-file (stop), else `ExpectedNewline`. -/
def programLoopBody (p : ParserPack) (acc : List Stmt) : P (List Stmt) := do
  _ ← p.skipNewlines false
  P.tryCatch
    (do
      let s ← p.stmt
      let acc := acc ++ [s]
      match ← parseTerminal (fun tt => tt matches .NewLine) with
      | .ok _ => p.programLoop acc
      | .error _ =>
        match ← parseTerminal (fun tt => tt matches .EndOfFile) with
        | .ok _ => return acc
        | .error token => P.throwCE (.ExpectedNewline token.start))
    (fun e =>
      match e with
      | .compile .NotFound => return acc
      | e => P.throw e)

/-- `Parser::stmt` (the `println!` debug lines have no observable effect and
are dropped). -/
def stmtBody (p : ParserPack) : P Stmt := do
  let token ← peekP
  match token.tokentype with
  | .Let => p.declOrInit
  | .Ident _ | .IntLiteral _ | .SBrace | .Minus => p.assignStmtOrRexp
  | .Exit => p.exitStmt
  | .SCurly => p.blockStmt
  | .If => p.ifStmt
  | _ => P.throwCE .NotFound

/-- `Parser::skip_newlines` -/
def skipNewlinesBody (p : ParserPack) (acc : Bool) : P Bool := do
  match ← parseTerminal (fun tt => tt matches .NewLine | .StartOfFile) with
  | .ok _ => p.skipNewlines true
  | .error _ => return acc

/-- `Parser::if_` -/
def ifStmtBody (p : ParserPack) : P Stmt := do
  match ← parseTerminal (fun tt => tt matches .If) with
  | .error _ => P.throwCE .NotFound
  | .ok _ => do
    let peeked ← peekP
    let rexp ← P.handleNotFound p.rexp (.ExpectedExpression peeked.start)
    let peeked2 ← peekP
    let ifBlockStmt ← P.handleNotFound p.blockStmt (.ExpectedBlock peeked2.start)
    let ifBlock ←
      match ifBlockStmt with
      | .Block b => pure b
      | _ => P.throw .panicked
    match ← parseTerminal (fun tt => tt matches .Else) with
    | .error _ => return Stmt.If rexp ifBlock none
    | .ok _ =>
      P.tryCatch
        (do
          let elseIf ← p.ifStmt
          return Stmt.If rexp ifBlock (some elseIf))
        (fun e =>
          match e with
          | .compile .NotFound =>
            P.tryCatch
              (do
                let elseBlock ← p.blockStmt
                return Stmt.If rexp ifBlock (some elseBlock))
              (fun e =>
                match e with
                | .compile .NotFound => do
                  let peeked3 ← peekP
                  P.throwCE (.ExpectedBlock peeked3.start)
                | e => P.throw e)
          | e => P.throw e)

/-- `Parser::block` -/
def blockStmtBody (p : ParserPack) : P Stmt := do
  match ← parseTerminal (fun tt => tt matches .SCurly) with
  | .error _ => P.throwCE .NotFound
  | .ok _ => do
    let stmts ← p.blockLoop []
    match ← parseTerminal (fun tt => tt matches .ECurly) with
    | .ok _ => return Stmt.Block stmts
    | .error token => P.throwCE (.ExpectedECurly token.start)

/-- the `loop` inside `Parser::block`: skip newlines, parse a statement
(`NotFound` ends the loop), then a newline continues and anything else ends
the loop. -/
def blockLoopBody (p : ParserPack) (acc : List Stmt) : P (List Stmt) := do
  _ ← p.skipNewlines false
  P.tryCatch
    (do
      let s ← p.stmt
      let acc := acc ++ [s]
      match ← parseTerminal (fun tt => tt matches .NewLine) with
      | .ok _ => p.blockLoop acc
      | .error _ => return acc)
    (fun e =>
      match e with
      | .compile .NotFound => return acc
      | e => P.throw e)

/-- `Parser::exit` -/
def exitStmtBody (p : ParserPack) : P Stmt := do
  match ← parseTerminal (fun tt => tt matches .Exit) with
  | .error _ => P.throwCE .NotFound
  | .ok token => do
    let rexp ← P.handleNotFound p.rexp (.ExpectedExpression token.tokEnd)
    return Stmt.Exit rexp

/-- `Parser::assign_stmt_or_rexp` -/
def assignStmtOrRexpBody (p : ParserPack) : P Stmt := do
  let peeked ← peekP
  let exp ← P.handleNotFound p.rexp (.ExpectedExpression peeked.start)
  match ← parseTerminal (fun tt => tt matches .Assign) with
  | .error _ => return Stmt.RExp exp
  | .ok token => do
    let lexp ←
      match LExp.tryFromRExp exp with
      | .error rexp => P.throwCE (.RExpOnLHS rexp)
      | .ok lexp => pure lexp
    let rexp ← P.handleNotFound p.rexp (.ExpectedExpression token.tokEnd)
    return Stmt.Assign lexp rexp

/-- `Parser::rexp_min_prec` (the leading `term` conversion; the operator
loop is `rexpLoop`). -/
def rexpMinPrecBody (p : ParserPack) (min_prec : Nat) : P RExp := do
  let t ← p.term
  p.rexpLoop min_prec (RExp.Term t)

/-- the `loop` inside `Parser::rexp_min_prec`. -/
def rexpLoopBody (p : ParserPack) (min_prec : Nat) (acc : RExp) : P RExp := do
  let op ← peekP
  if ¬ is_op op.tokentype then
    return acc
  else
    let (prec, assoc) := op_prec_and_assoc op.tokentype
    if prec < min_prec then
      return acc
    else do
      consumeP
      let next_min_prec :=
        match assoc with
        | .Left => prec + 1
        | .Right => prec
      let rhs ← P.handleNotFound (p.rexpMinPrec next_min_prec)
        (.ExpectedExpression op.tokEnd)
      match RExp.combine op.tokentype acc rhs with
      | some combined => p.rexpLoop min_prec combined
      | none => P.throw .panicked

/-- `Parser::rexp` -/
def rexpBody (p : ParserPack) : P RExp := p.rexpMinPrec 0

/-- `Parser::term` -/
def termBody (p : ParserPack) : P Term := do
  match ← parseTerminal (fun tt => tt matches .Ident _ | .IntLiteral _) with
  | .ok token =>
    (match Term.fromToken token with
     | .ok t => return t
     | .error _ => P.throw .panicked)
  | .error _ =>
  match ← parseTerminal (fun tt => tt matches .Minus) with
  | .ok _ => do
    let t ← p.term
    return Term.Neg t
  | .error _ => do
  let token ← peekP
  match token.tokentype with
  | .SBrace => do
    let st ← P.get
    P.set { st with rexp_nesting_level := st.rexp_nesting_level + 1,
                    lexer := { st.lexer with emit_newline := false } }
    consumeP
    let peeked ← peekP
    let rexp ← P.handleNotFound p.rexp (.ExpectedExpression peeked.start)
    let token2 ← peekP
    match token2.tokentype with
    | .EBrace => do
      let st ← P.get
      let newLevel := st.rexp_nesting_level - 1
      let st := { st with rexp_nesting_level := newLevel }
      let st :=
        if newLevel ≤ 0 then
          { st with lexer := { st.lexer with emit_newline := true } }
        else st
      P.set st
      consumeP
      return Term.Bracketed rexp
    | _ => P.throwCE (.UnexpectedToken token2)
  | _ => P.throwCE .NotFound

/-- `Parser::decl_or_init` -/
def declOrInitBody (p : ParserPack) : P Stmt := do
  match ← parseTerminal (fun tt => tt matches .Let) with
  | .error _ => P.throw .panicked
  | .ok _ => do
    let ident ←
      match ← parseTerminal (fun tt => tt matches .Ident _) with
      | .ok token =>
        (match Identifier.fromToken token with
         | some i => pure i
         | none => P.throw .panicked)
      | .error token => P.throwCE (.ExpectedIdent token.start)
    match ← parseTerminal (fun tt => tt matches .Assign) with
    | .error _ => return Stmt.Declare ident
    | .ok _ => do
      let peeked ← peekP
      let rexp ← P.handleNotFound p.rexp (.ExpectedExpression peeked.start)
      return Stmt.Initialize ident rexp

def parsers : Nat → ParserPack
  | 0 => outOfFuelPack
  | n + 1 =>
    let p := parsers n
    { programLoop := programLoopBody p
      stmt := stmtBody p
      skipNewlines := skipNewlinesBody p
      ifStmt := ifStmtBody p
      blockStmt := blockStmtBody p
      blockLoop := blockLoopBody p
      exitStmt := exitStmtBody p
      assignStmtOrRexp := assignStmtOrRexpBody p
      rexpMinPrec := rexpMinPrecBody p
      rexpLoop := rexpLoopBody p
      rexp := rexpBody p
      term := termBody p
      declOrInit := declOrInitBody p }

/-- `Parser::new` + `Parser::parse_program`: parse a whole source,
returning the accumulated statement list of the `Program`. -/
def parseProgramChars (fuel : Nat) (source : List Char) : Except PError (List Stmt) :=
  match (parsers fuel).programLoop [] { lexer := Lexer.newChars source, rexp_nesting_level := 0 } with
  | .ok (stmts, _) => .ok stmts
  | .error e => .error e

def parseProgram (fuel : Nat) (source : String) : Except PError (List Stmt) :=
  parseProgramChars fuel source.toList

/-! ## Association-list helpers (standing in for `HashMap` get/insert) -/

def lookupAssoc {α : Type} : List (String × α) → String → Option α
  | [], _ => none
  | (k, v) :: rest, key => if k = key then some v else lookupAssoc rest key

/-- `HashMap::insert` (replace-or-add); the new binding shadows any old one
for `lookupAssoc`. -/
def insertAssoc {α : Type} (m : List (String × α)) (key : String) (v : α) :
    List (String × α) :=
  (key, v) :: m

/-! ## StringDecorator (src/codegen/string_decorator.rs) -/

/-- `StringDecorator` is its `decoration_indices` map. -/
abbrev StringDecorator : Type := List (String × Nat)

def StringDecorator.default : StringDecorator := []

/-- `StringDecorator::decorate_and_increment` -/
def StringDecorator.decorate_and_increment (d : StringDecorator) (s : String) :
    String × StringDecorator :=
  let index := (lookupAssoc d s).getD 0
  (s ++ "_" ++ toString index, insertAssoc d s (index + 1))

/-! ## Code generator scope model (src/codegen/codegen.rs) -/

/-- `Symbol` (codegen version; "Symbol" itself is taken by the Lean environment). -/
structure CGSymbol where
  decorated_lexeme : String
  size_bytes : Nat
  rbp_offset : Nat
  initialized : Bool
  deriving DecidableEq, Repr

/-- One `Env` struct minus its `prev` pointer: the chain of `prev` pointers
is the tail of the surrounding `EnvChain` list. -/
structure Frame where
  symtable : List (String × CGSymbol)
  shadow_counts : List (String × Nat)
  current_rbp_offset : Nat
  deriving DecidableEq, Repr

/-- the chain `self -> prev -> prev -> …`; head is the innermost `Env`. -/
abbrev EnvChain : Type := List Frame

/-- `Env::new` -/
def Frame.new : Frame := ⟨[], [], 0⟩

/-- `Env::with_tail`: a fresh scope whose offset allocator starts from the
enclosing scope's current value. -/
def withTail (tail : EnvChain) : EnvChain :=
  { Frame.new with
    current_rbp_offset :=
      match tail with
      | f :: _ => f.current_rbp_offset
      | [] => 0 } :: tail

/-- `Env::get_shadow_count` -/
def Frame.get_shadow_count (f : Frame) (lexeme : String) : Nat :=
  (lookupAssoc f.shadow_counts lexeme).getD 0

/-- the decorated name `format!("{}_{}", lexeme, shadow_count)`. -/
def decorateName (lexeme : String) (count : Nat) : String :=
  lexeme ++ "_" ++ toString count

/-- the head scope's decorated lookup performed by `Env::get_symbol`. -/
def Frame.local_symbol (f : Frame) (lexeme : String) : Option CGSymbol :=
  lookupAssoc f.symtable (decorateName lexeme (f.get_shadow_count lexeme))

/-- `Env::get_symbol` -/
def EnvChain.get_symbol : EnvChain → String → Option CGSymbol
  | [], _ => none
  | f :: prev, lexeme =>
    match f.local_symbol lexeme with
    | some sym => some sym
    | none => EnvChain.get_symbol prev lexeme

/-- `Env::register_symbol` (with the `SymbolBuilder` fields passed
directly): bump the shadow count, decorate, advance the offset allocator by
8 and store the new symbol. -/
def Frame.register_symbol (f : Frame) (lexeme : String) (size_bytes : Nat)
    (initialized : Bool) : Frame :=
  let shadow_count := f.get_shadow_count lexeme + 1
  let decorated_lexeme := decorateName lexeme shadow_count
  let offset := f.current_rbp_offset + 8
  { symtable := insertAssoc f.symtable decorated_lexeme
      ⟨decorated_lexeme, size_bytes, offset, initialized⟩
    shadow_counts := insertAssoc f.shadow_counts lexeme shadow_count
    current_rbp_offset := offset }

/-- `Env::declare` -/
def Frame.declare (f : Frame) (ident : Identifier) : Frame :=
  f.register_symbol ident.lexeme 8 false

/-- `Env::initialize` -/
def Frame.initialize (f : Frame) (ident : Identifier) : Frame :=
  f.register_symbol ident.lexeme 8 true

/-- apply a mutation of the current (head) scope, as `&mut Env` methods do. -/
def EnvChain.onHead (env : EnvChain) (f : Frame → Frame) : EnvChain :=
  match env with
  | [] => []
  | head :: tail => f head :: tail

/-! ## Assembly emitter (src/codegen/codegen.rs)

`Asm.text` is represented as the list of its lines (the Rust code pushes
`'\n'` after every line); `link_files` and `externals` are only used by the
file-writing code, which is out of scope. -/

structure AsmS where
  label_decorator : StringDecorator
  lines : List String

def AsmS.default : AsmS := ⟨StringDecorator.default, []⟩

/-- `Asm::stmt` -/
def AsmS.stmtLine (a : AsmS) (s : String) : AsmS :=
  { a with lines := a.lines ++ ["    " ++ s] }

/-- `Asm::label` -/
def AsmS.labelLine (a : AsmS) (l : String) : AsmS :=
  { a with lines := a.lines ++ [l ++ ":"] }

/-- `Asm::comment` -/
def AsmS.commentLine (a : AsmS) (c : String) : AsmS :=
  { a with lines := a.lines ++ ["    ; " ++ c] }

def AsmS.stmtLines (a : AsmS) (ls : List String) : AsmS :=
  ls.foldl AsmS.stmtLine a

inductive GErr where
  | compile (e : CompileError)
  | outOfFuel
  | panicked

/-- `Asm::ident` -/
def asmIdent (a : AsmS) (ident : Identifier) (env : EnvChain) :
    Except GErr AsmS :=
  match env.get_symbol ident.lexeme with
  | none => .error (.compile (.UndeclaredIdent ident))
  | some sym =>
    let a := a.stmtLine ""
    let a := a.commentLine sym.decorated_lexeme
    .ok (a.stmtLine ("push qword [rbp-" ++ toString sym.rbp_offset ++ "]"))

/-- `Asm::intlit` -/
def asmIntlit (a : AsmS) (intlit : IntLiteral) : Except GErr AsmS :=
  let a := a.stmtLine ""
  let a := a.commentLine intlit.lexeme
  let a := a.stmtLine ("mov rax, " ++ intlit.lexeme)
  .ok (a.stmtLine "push rax")

/-- the mutually recursive `Asm::term` / `Asm::rexp` / `Asm::binary_operator`
family, fuel-indexed like the parser. -/
structure ExpGen where
  rexpFn : RExp → EnvChain → AsmS → Except GErr AsmS
  termFn : Term → EnvChain → AsmS → Except GErr AsmS

/-- `Asm::binary_operator`; `op_lines` is what the `asm_gen` closure emits
(the `?` operators are the explicit error matches). -/
def binaryOperator (g : ExpGen) (bin_exp lhs rhs : RExp) (env : EnvChain)
    (a : AsmS) (op_lines : List String) : Except GErr AsmS :=
  match g.rexpFn lhs env a with
  | .error e => .error e
  | .ok a1 =>
    match g.rexpFn rhs env a1 with
    | .error e => .error e
    | .ok a2 =>
      let a3 := a2.stmtLine ""
      let a4 := a3.commentLine bin_exp.display
      let a5 := a4.stmtLine "pop rbx"
      let a6 := a5.stmtLine "pop rax"
      let a7 := a6.stmtLines op_lines
      .ok (a7.stmtLine "push rax")

/-- `Asm::rexp` -/
def rexpGenBody (g : ExpGen) (rexp : RExp) (env : EnvChain) (a : AsmS) :
    Except GErr AsmS :=
  match rexp with
  | .Add lhs rhs => binaryOperator g rexp lhs rhs env a ["add rax, rbx"]
  | .Term t => g.termFn t env a
  | .Sub lhs rhs => binaryOperator g rexp lhs rhs env a ["sub rax, rbx"]
  | .Mul lhs rhs => binaryOperator g rexp lhs rhs env a ["mul rbx"]
  | .Div lhs rhs => binaryOperator g rexp lhs rhs env a ["xor rdx, rdx", "div rbx"]
  | .Equal lhs rhs =>
    binaryOperator g rexp lhs rhs env a ["cmp rax, rbx", "sete al", "and rax, 255"]
  | .NotEqual lhs rhs =>
    binaryOperator g rexp lhs rhs env a ["cmp rax, rbx", "setne al", "and rax, 255"]
  | .Less lhs rhs =>
    binaryOperator g rexp lhs rhs env a ["cmp rax, rbx", "setl al", "and rax, 255"]
  | .LessEqual lhs rhs =>
    binaryOperator g rexp lhs rhs env a ["cmp rax, rbx", "setle al", "and rax, 255"]
  | .Greater lhs rhs =>
    binaryOperator g rexp lhs rhs env a ["cmp rax, rbx", "setg al", "and rax, 255"]
  | .GreaterEqual lhs rhs =>
    binaryOperator g rexp lhs rhs env a ["cmp rax, rbx", "setge al", "and rax, 255"]

/-- `Asm::term` -/
def termGenBody (g : ExpGen) (term : Term) (env : EnvChain) (a : AsmS) :
    Except GErr AsmS :=
  match term with
  | .LExp (.Ident ident) => asmIdent a ident env
  | .IntLit intlit => asmIntlit a intlit
  | .Neg inner =>
    match g.termFn inner env a with
    | .error e => .error e
    | .ok a1 =>
      let a2 := a1.stmtLine "pop rax"
      let a3 := a2.stmtLine ""
      let a4 := a3.commentLine (Term.display (.Neg inner))
      let a5 := a4.stmtLine "neg rax"
      .ok (a5.stmtLine "push rax")
  | .Bracketed rexp => g.rexpFn rexp env a

def expGen : Nat → ExpGen
  | 0 => ⟨fun _ _ _ => .error .outOfFuel, fun _ _ _ => .error .outOfFuel⟩
  | n + 1 =>
    let g := expGen n
    ⟨rexpGenBody g, termGenBody g⟩

/-! ## Statement lowering (src/codegen/codegen.rs) -/

/-- the mutually recursive `Asm::gen_stmt` / `Asm::gen_block` family,
fuel-indexed. A call returns the extended assembly text plus the updated
scope chain; `gen_block` builds a child scope with `with_tail`, generates
into it, and discards it afterwards (the parent chain is returned
unchanged, exactly as the borrowed `&Env` tail in the source is never
mutated through the child). -/
structure StmtGen where
  genStmtFn : Stmt → EnvChain → AsmS → Except GErr (AsmS × EnvChain)
  genStmtsFn : List Stmt → EnvChain → AsmS → Except GErr (AsmS × EnvChain)
  genBlockFn : List Stmt → Option EnvChain → AsmS → Except GErr AsmS

/-- `Asm::gen_stmt`; `expFuel` is the fuel given to the expression
emitters. -/
def genStmtBody (expFuel : Nat) (g : StmtGen) (stmt : Stmt) (env : EnvChain)
    (a : AsmS) : Except GErr (AsmS × EnvChain) :=
  match stmt with
  | .Declare ident =>
    let env := env.onHead (fun f => f.declare ident)
    match env.get_symbol ident.lexeme with
    | none => .error .panicked
    | some sym =>
      let a := a.stmtLine ""
      let a := a.commentLine ("let " ++ sym.decorated_lexeme)
      .ok (a.stmtLine ("sub rsp, " ++ toString sym.size_bytes), env)
  | .Initialize l_ident rexp => do
    let a := a.stmtLine ""
    let a := a.commentLine ("let " ++ l_ident.lexeme ++ " = " ++ rexp.display)
    let a := a.stmtLine ""
    let a ← (expGen expFuel).rexpFn rexp env a
    let env := env.onHead (fun f => f.initialize l_ident)
    match env.get_symbol l_ident.lexeme with
    | none => .error .panicked
    | some l_sym =>
      let a := a.stmtLine ""
      let a := a.commentLine ("let " ++ l_sym.decorated_lexeme ++ " = " ++ rexp.display)
      let a := a.stmtLine "pop rax"
      let a := a.stmtLine ("sub rsp, " ++ toString l_sym.size_bytes)
      .ok (a.stmtLine ("mov qword [rbp-" ++ toString l_sym.rbp_offset ++ "], rax"), env)
  | .Assign lexp rexp => do
    match lexp with
    | .Ident l_ident =>
      match env.get_symbol l_ident.lexeme with
      | none => .error (.compile (.UndeclaredIdent l_ident))
      | some l_sym => do
        let a := a.stmtLine ""
        let a := a.commentLine (l_sym.decorated_lexeme ++ " = " ++ rexp.display)
        let a ← (expGen expFuel).rexpFn rexp env a
        let a := a.stmtLine ""
        let a := a.commentLine (l_sym.decorated_lexeme ++ " = " ++ rexp.display)
        let a := a.stmtLine "pop rax"
        .ok (a.stmtLine ("mov qword [rbp-" ++ toString l_sym.rbp_offset ++ "], rax"), env)
  | .RExp rexp => do
    let a := a.commentLine rexp.display
    let a ← (expGen expFuel).rexpFn rexp env a
    return (a, env)
  | .Exit rexp => do
    let a ← (expGen expFuel).rexpFn rexp env a
    let a := a.stmtLine ""
    let a := a.commentLine ("exit " ++ rexp.display)
    let a := a.stmtLine "pop rax"
    let a := a.stmtLine "mov rcx, rax"
    return (a.stmtLine "call ExitProcess", env)
  | .Block block => do
    let a ← g.genBlockFn block (some env) a
    return (a, env)
  | .If rexp ifBlock elseBlock =>
    match elseBlock with
    | none => do
      let (end_if_label, dec) := a.label_decorator.decorate_and_increment "end_if"
      let a := { a with label_decorator := dec }
      let a ← (expGen expFuel).rexpFn rexp env a
      let a := a.commentLine (rexp.display ++ " == 0")
      let a := a.stmtLine "pop rax"
      let a := a.stmtLine "test rax, rax"
      let a := a.stmtLine ("jz " ++ end_if_label)
      let a := a.commentLine "if"
      let a ← g.genBlockFn ifBlock (some env) a
      return (a.labelLine end_if_label, env)
    | some else_stmt => do
      let (else_start_label, dec) := a.label_decorator.decorate_and_increment "else_start"
      let a := { a with label_decorator := dec }
      let (else_end_label, dec2) := a.label_decorator.decorate_and_increment "else_end"
      let a := { a with label_decorator := dec2 }
      let a ← (expGen expFuel).rexpFn rexp env a
      let a := a.commentLine (rexp.display ++ " == 0")
      let a := a.stmtLine "pop rax"
      let a := a.stmtLine "test rax, rax"
      let a := a.stmtLine ("jz " ++ else_start_label)
      let a := a.commentLine "if"
      let a ← g.genBlockFn ifBlock (some env) a
      let a := a.stmtLine ("jmp " ++ else_end_label)
      let a := a.labelLine else_start_label
      let a ←
        match else_stmt with
        | .Block block => do
          let a := a.commentLine "else \x7b"
          let a ← g.genBlockFn block (some env) a
          pure (a.commentLine "\x7d")
        | .If c b e => do
          let a := a.commentLine "else if \x7b"
          let (a, _) ← g.genStmtFn (.If c b e) env a
          pure (a.commentLine "\x7d")
        | _ => .error .panicked
      return (a.labelLine else_end_label, env)

/-- the `for stmt in stmts.iter()` loop in `Asm::gen_block`. -/
def genStmtsBody (g : StmtGen) (stmts : List Stmt) (env : EnvChain) (a : AsmS) :
    Except GErr (AsmS × EnvChain) :=
  match stmts with
  | [] => .ok (a, env)
  | s :: rest => do
    let (a, env) ← g.genStmtFn s env a
    g.genStmtsFn rest env a

/-- `Asm::gen_block` -/
def genBlockBody (g : StmtGen) (stmts : List Stmt) (previous_env : Option EnvChain)
    (a : AsmS) : Except GErr AsmS := do
  let new_env :=
    match previous_env with
    | none => [Frame.new]
    | some prev => withTail prev
  let a := a.commentLine "\x7b"
  let (a, _) ← g.genStmtsFn stmts new_env a
  return a.commentLine "\x7d"

def stmtGen (expFuel : Nat) : Nat → StmtGen
  | 0 =>
    ⟨fun _ _ _ => .error .outOfFuel, fun _ _ _ => .error .outOfFuel,
     fun _ _ _ => .error .outOfFuel⟩
  | n + 1 =>
    let g := stmtGen expFuel n
    ⟨genStmtBody expFuel g, genStmtsBody g, genBlockBody g⟩

/-- `Asm::gen` (the top-level code generation entry point as called from
`main`): prologue, one outer block with a fresh `Env`, exit-0 epilogue. -/
def genProgram (fuel : Nat) (stmts : List Stmt) : Except GErr AsmS := do
  let a := AsmS.default
  let a := a.labelLine "_start"
  let a := a.stmtLine "mov rbp, rsp"
  let a ← (stmtGen fuel fuel).genBlockFn stmts none a
  let a := a.stmtLine ""
  let a := a.commentLine "exit 0"
  let a := a.stmtLine "xor rcx, rcx"
  return a.stmtLine "call ExitProcess"

/-! ## Semantic analyzer (src/semantic_anal.rs)

This module is part of the repository but is not wired into `main.rs`
(which runs parse → codegen only); its error variants
`UseOfUndeclaredIdent` / `UseOfUninitializedIdent` are represented by
`CompileError.UndeclaredIdent` / `CompileError.UninitializedIdent`. -/

structure ASymbol where
  ident : Identifier
  size_bytes : Nat
  rbp_offset : Nat
  initialized : Bool
  deriving DecidableEq, Repr

/-- one semantic-analysis `Env` struct minus its `prev` pointer. -/
structure AFrame where
  symtable : List (String × ASymbol)
  shadow_indices : List (String × Int)
  rbp : Nat
  current_rbp_offset : Nat
  deriving DecidableEq, Repr

abbrev AEnv : Type := List AFrame

def AFrame.new : AFrame := ⟨[], [], 0, 0⟩

inductive AErr where
  | err (e : CompileError)
  | panicked

/-- `Env::get` (semantic analyzer): walk the chain looking the raw key up in
each symtable. -/
def AEnv.get : AEnv → String → Option ASymbol
  | [], _ => none
  | f :: prev, ident =>
    match lookupAssoc f.symtable ident with
    | some sym => some sym
    | none => AEnv.get prev ident

/-- `Env::get_shadow_index`: first scope in the chain with an entry wins;
`-1` when no scope has one. -/
def AEnv.get_shadow_index : AEnv → String → Int
  | [], _ => -1
  | f :: prev, lexeme =>
    match lookupAssoc f.shadow_indices lexeme with
    | some idx => idx
    | none => AEnv.get_shadow_index prev lexeme

/-- `Env::decorate_ident`: rewrite the identifier's lexeme to
`format!("{}_{}", lexeme, shadow_index)`. -/
def AEnv.decorate_ident (env : AEnv) (ident : Identifier) : Identifier :=
  { ident with lexeme := ident.lexeme ++ "_" ++ toString (env.get_shadow_index ident.lexeme) }

/-- `Env::declare_aux` (head-scope mutation; the redeclaration arm panics in
the source). -/
def AEnv.declare_aux (env : AEnv) (ident : Identifier) (initialized : Bool) :
    Except AErr AEnv :=
  match env with
  | [] => .error .panicked
  | f :: prev =>
    match lookupAssoc f.symtable ident.lexeme with
    | some _ => .error .panicked
    | none =>
      let shadow_index := (lookupAssoc f.shadow_indices ident.lexeme).getD 0
      let f := { f with shadow_indices := insertAssoc f.shadow_indices ident.lexeme (shadow_index + 1) }
      let env' : AEnv := f :: prev
      let decorated := env'.decorate_ident ident
      let f := { f with current_rbp_offset := f.current_rbp_offset + 8 }
      let newSym : ASymbol := ⟨decorated, 8, f.current_rbp_offset, initialized⟩
      let f := { f with symtable := insertAssoc f.symtable decorated.lexeme newSym }
      .ok (f :: prev)

/-- `Env::declare` (semantic analyzer) -/
def AEnv.declare (env : AEnv) (ident : Identifier) : Except AErr AEnv :=
  env.declare_aux ident false

/-- `Env::init` -/
def AEnv.init (env : AEnv) (ident : Identifier) : Except AErr AEnv :=
  env.declare_aux ident true

/-- `analyze_term` (the `Neg`/`Bracketed` arms panic in the source). -/
def analyze_term (term : Term) (env : AEnv) : Except AErr Unit :=
  match term with
  | .IntLit _ => .ok ()
  | .LExp (.Ident ident) =>
    let ident := env.decorate_ident ident
    match env.get ident.lexeme with
    | none => .error (.err (.UndeclaredIdent ident))
    | some sym =>
      if ¬ sym.initialized then .error (.err (.UninitializedIdent ident))
      else .ok ()
  | _ => .error .panicked

/-- `analyze_rexp` -/
def analyze_rexp (rexp : RExp) (env : AEnv) : Except AErr Unit :=
  match rexp with
  | .Term term => analyze_term term env
  | .Add lhs rhs | .Sub lhs rhs | .Mul lhs rhs | .Div lhs rhs
  | .Equal lhs rhs | .NotEqual lhs rhs | .Less lhs rhs | .LessEqual lhs rhs
  | .Greater lhs rhs | .GreaterEqual lhs rhs => do
    _ ← analyze_rexp lhs env
    analyze_rexp rhs env

/-- the per-statement body of `analyze` (the `Block`/`If`/`Exit` arms panic
in the source). `get_mut` on the `Assign` arm updates the found symbol's
`initialized` flag in the scope that holds it. -/
def AEnv.set_initialized : AEnv → String → Option AEnv
  | [], _ => none
  | f :: prev, ident =>
    match lookupAssoc f.symtable ident with
    | some sym =>
      some ({ f with symtable := insertAssoc f.symtable ident { sym with initialized := true } } :: prev)
    | none =>
      match AEnv.set_initialized prev ident with
      | some prev' => some (f :: prev')
      | none => none

def analyze_stmt (env : AEnv) (stmt : Stmt) : Except AErr AEnv :=
  match stmt with
  | .Declare ident => env.declare ident
  | .Initialize l_ident rexp => do
    _ ← analyze_rexp rexp env
    env.init l_ident
  | .Assign lexp rexp => do
    _ ← analyze_rexp rexp env
    match lexp with
    | .Ident l_ident =>
      let l_ident := env.decorate_ident l_ident
      match env.set_initialized l_ident.lexeme with
      | none => .error (.err (.UndeclaredIdent l_ident))
      | some env' => .ok env'
  | .RExp rexp => do
    _ ← analyze_rexp rexp env
    return env
  | _ => .error .panicked

/-- `analyze` -/
def analyze (stmts : List Stmt) : Except AErr AEnv :=
  stmts.foldlM analyze_stmt [AFrame.new]

/-! ## Erasing source locations

"equal up to source location" is stated via these projections, which reset
every `file`/`start`/`end` annotation to its default. -/

def Identifier.strip (i : Identifier) : Identifier :=
  { i with file := none, start := Location.default, tokEnd := Location.default }

def IntLiteral.strip (i : IntLiteral) : IntLiteral :=
  { i with file := none, start := Location.default, tokEnd := Location.default }

mutual
def Term.strip : Term → Term
  | .LExp l => .LExp l.strip
  | .IntLit i => .IntLit i.strip
  | .Neg t => .Neg t.strip
  | .Bracketed e => .Bracketed e.strip

def RExp.strip : RExp → RExp
  | .Term t => .Term t.strip
  | .Add lhs rhs => .Add lhs.strip rhs.strip
  | .Sub lhs rhs => .Sub lhs.strip rhs.strip
  | .Mul lhs rhs => .Mul lhs.strip rhs.strip
  | .Div lhs rhs => .Div lhs.strip rhs.strip
  | .Equal lhs rhs => .Equal lhs.strip rhs.strip
  | .NotEqual lhs rhs => .NotEqual lhs.strip rhs.strip
  | .Less lhs rhs => .Less lhs.strip rhs.strip
  | .LessEqual lhs rhs => .LessEqual lhs.strip rhs.strip
  | .Greater lhs rhs => .Greater lhs.strip rhs.strip
  | .GreaterEqual lhs rhs => .GreaterEqual lhs.strip rhs.strip

def LExp.strip : LExp → LExp
  | .Ident i => .Ident i.strip
end

/-- convenience: a location-free identifier with a given name. -/
def mkIdent (name : String) : Identifier :=
  ⟨none, Location.default, Location.default, name⟩

/-- convenience: a location-free integer-literal term. -/
def mkLit (s : String) : RExp :=
  .Term (.IntLit ⟨none, Location.default, Location.default, s⟩)

def mkVar (name : String) : RExp := .Term (.LExp (.Ident (mkIdent name)))

/-! ## Statement-side helpers for the properties below -/

/-- a lexer whose token buffer is pre-filled (the parser replays buffered
tokens through `consume`'s first branch without touching the character
stream), used to quantify over arbitrary operand tokens. -/
def bufferedLexer (ts : List Token) : Lexer :=
  { rest := []
    tokens := ts
    next_token := startToken
    token_cursor := 0
    loc := Location.default
    emit_newline := true }

def opToken (tt : TokenType) : Token :=
  { file := none, start := Location.default, tokEnd := Location.default, tokentype := tt }

/-- a line of emitted text is a push instruction iff it starts with
`    push` (instruction lines are `"    " ++ instr`, comments are
`"    ; " ++ text`, labels end with `":"`). -/
def isPushLine (l : String) : Bool := decide (l.toList.take 8 = "    push".toList)

def isPopLine (l : String) : Bool := decide (l.toList.take 7 = "    pop".toList)

def countPush (ls : List String) : Nat := ls.countP isPushLine

def countPop (ls : List String) : Nat := ls.countP isPopLine

/-- the stack discipline of an emitted instruction sequence: no prefix pops
more than was pushed before it. -/
def StackSafe (ls : List String) : Prop :=
  ∀ n, countPop (ls.take n) ≤ countPush (ls.take n)

/-- classifies a parse result as the internal `NotFound` signal. -/
def isNotFoundResult {α : Type} : Except PError α → Bool
  | .error (.compile .NotFound) => true
  | _ => false

/-! # Theorems -/

/-- C6: multiplicative operators bind tighter than additive ones and
`+`, `-`, `*`, `/` are left-associative: `1 + 2 * 3` parses as
`Add(1, Mul(2,3))`, `2 * 3 + 1` parses as `Add(Mul(2,3), 1)`, and
`10 - 3 - 2` parses as `Sub(Sub(10,3), 2)` (operator table: additive
operators have precedence 2, multiplicative 3, both left-associative). -/
theorem c6_precedence_and_left_assoc :
    (op_prec_and_assoc .Plus = (2, .Left) ∧ op_prec_and_assoc .Minus = (2, .Left) ∧
     op_prec_and_assoc .Asterisk = (3, .Left) ∧ op_prec_and_assoc .ForwardSlash = (3, .Left)) ∧
    (∃ e, parseProgram 30 "1 + 2 * 3" = .ok [Stmt.RExp e] ∧
      e.strip = RExp.Add (mkLit "1") (.Mul (mkLit "2") (mkLit "3"))) ∧
    (∃ e, parseProgram 30 "2 * 3 + 1" = .ok [Stmt.RExp e] ∧
      e.strip = RExp.Add (.Mul (mkLit "2") (mkLit "3")) (mkLit "1")) ∧
    (∃ e, parseProgram 30 "10 - 3 - 2" = .ok [Stmt.RExp e] ∧
      e.strip = RExp.Sub (.Sub (mkLit "10") (mkLit "3")) (mkLit "2")) := by
  refine ⟨⟨rfl, rfl, rfl, rfl⟩, ⟨_, rfl, rfl⟩, ⟨_, rfl, rfl⟩, ⟨_, rfl, rfl⟩⟩

/-- C1 (the code on the claimed behavior): in the compilation pipeline that
`main.rs` actually runs (parse, then `Asm::gen`), a program that declares
`x` without ever assigning it and then reads `x` is NOT rejected: code
generation succeeds and emits a read of the uninitialized slot. Only the
stand-alone semantic analyzer (`semantic_anal.rs`, not invoked by `main`)
would report the uninitialized-identifier error. The undeclared-identifier
half of the claim does hold in the code generator. -/
theorem c1_uninitialized_read_not_rejected :
    (∃ prog asm,
      parseProgram 30 "let x\nx" = .ok prog ∧
      genProgram 30 prog = .ok asm ∧
      asm.lines.count "    push qword [rbp-8]" = 1 ∧
      (∃ i, analyze prog = .error (.err (.UninitializedIdent i)) ∧ i.lexeme = "x_1")) ∧
    (∃ prog2 i2,
      parseProgram 30 "y" = .ok prog2 ∧
      genProgram 30 prog2 = .error (.compile (.UndeclaredIdent i2)) ∧ i2.lexeme = "y") := by
  exact ⟨⟨_, _, rfl, rfl, rfl, ⟨_, rfl, rfl⟩⟩, ⟨_, _, rfl, rfl, rfl⟩⟩

/-- C2 counterexample: in the run of the code generator on
`let x = 1  { let y = 2 }  let z = 3`, the bindings `y` (inside the block)
and `z` (after it) are both assigned frame offset 16 — an offset is reused
for two different bindings, and `z`'s offset is not 8 bytes above the
previously allocated offset (y's 16). Equivalently, at the `Env` level:
a child scope built by `with_tail` allocates 16 for `y`, and the parent —
whose allocator `with_tail` copied but never advances — allocates 16 again
for `z`. -/
theorem c2_offset_reuse_counterexample :
    (∃ prog asm,
      parseProgram 30 "let x = 1\n\x7b\nlet y = 2\n\x7d\nlet z = 3" = .ok prog ∧
      genProgram 30 prog = .ok asm ∧
      asm.lines.count "    mov qword [rbp-8], rax" = 1 ∧
      asm.lines.count "    mov qword [rbp-16], rax" = 2 ∧
      asm.lines.count "    mov qword [rbp-24], rax" = 0) ∧
    (let f1 := Frame.new.initialize (mkIdent "x")
     let childY := (withTail [f1]).onHead (fun f => f.initialize (mkIdent "y"))
     let parentZ := f1.initialize (mkIdent "z")
     EnvChain.get_symbol childY "y" = some ⟨"y_1", 8, 16, true⟩ ∧
     parentZ.local_symbol "z" = some ⟨"z_1", 8, 16, true⟩) := by
  exact ⟨⟨_, _, rfl, rfl, rfl, rfl, rfl⟩, rfl, rfl⟩

/-- C3 counterexample: an input whose first non-newline token starts no
statement production is NOT rejected: `)` parses successfully as the empty
program (the internal `NotFound` raised by `stmt` makes `parse_program`
break out of its loop and return `Ok`), with the offending token left
unconsumed. -/
theorem c3_garbage_start_accepted :
    parseProgram 30 ")" = .ok [] := by
  rfl

theorem bindP_def {α β : Type} (x : P α) (f : α → P β) (s : PState) :
    (x >>= f) s =
      match x s with
      | .ok (a, s') => f a s'
      | .error e => .error e := rfl

theorem pureP_def {α : Type} (a : α) (s : PState) : (pure a : P α) s = .ok (a, s) := rfl

theorem throwP_def {α : Type} (e : PError) (s : PState) : (P.throw e : P α) s = .error e := rfl

/-- `Lexer::consume` can only fail with `IllegalToken`. -/
theorem consume_error_shape (lx : Lexer) (e : CompileError)
    (h : lx.consume = .error e) : ∃ t, e = .IllegalToken t := by
  unfold Lexer.consume at h
  split at h
  · exact absurd h (by simp)
  · dsimp only at h
    split at h
    · exact absurd h (by simp)
    · split at h
      · exact absurd h (by simp)
      · split at h
        · exact absurd h (by simp)
        · split at h
          · unfold Lexer.int_literal at h
            dsimp only at h
            split at h
            · exact ⟨_, (Except.error.injEq _ _).mp h |>.symm⟩
            · exact absurd h (by simp)
          · exact ⟨_, (Except.error.injEq _ _).mp h |>.symm⟩

/-- `parseTerminal` can only fail with (a lifted) `IllegalToken`. -/
theorem parseTerminal_error_shape (q : TokenType → Bool) (st : PState) (er : PError)
    (h : parseTerminal q st = .error er) : ∃ t, er = .compile (.IllegalToken t) := by
  unfold parseTerminal at h
  rw [bindP_def] at h
  dsimp only [P.get] at h
  by_cases hq : q st.lexer.peek.tokentype = true
  · rw [if_pos hq] at h
    cases hc : st.lexer.consume with
    | error e =>
      rw [hc] at h
      dsimp only at h
      simp only [P.throwCE, throwP_def] at h
      obtain ⟨t, rfl⟩ := consume_error_shape _ _ hc
      exact ⟨t, ((Except.error.injEq _ _).mp h).symm⟩
    | ok lx' =>
      rw [hc] at h
      dsimp only at h
      rw [bindP_def] at h
      simp only [P.set, pureP_def] at h
      exact absurd h (by simp)
  · rw [if_neg hq] at h
    simp only [pureP_def] at h
    exact absurd h (by simp)

/-- `skip_newlines` never produces the `NotFound` signal. -/
theorem skipNewlines_not_notFound :
    ∀ (fuel : Nat) (acc : Bool) (st : PState),
      isNotFoundResult ((parsers fuel).skipNewlines acc st) = false := by
  intro fuel
  induction fuel with
  | zero => intro acc st; rfl
  | succ n ih =>
    intro acc st
    show isNotFoundResult (skipNewlinesBody (parsers n) acc st) = false
    unfold skipNewlinesBody
    rw [bindP_def]
    cases h : parseTerminal (fun tt => tt matches .NewLine | .StartOfFile) st with
    | ok r =>
      obtain ⟨res, st'⟩ := r
      cases res with
      | ok tk => exact ih true st'
      | error tk => rfl
    | error er =>
      obtain ⟨t, rfl⟩ := parseTerminal_error_shape _ _ _ h
      rfl

/-- `P.tryCatch` with the `NotFound`-to-`Ok` handler used by the statement
loops never produces the `NotFound` signal, whatever the wrapped action
does. -/
theorem tryCatch_notFound_handler {α : Type} (x : P α) (d : α) (st : PState) :
    isNotFoundResult
      (P.tryCatch x
        (fun e =>
          match e with
          | .compile .NotFound => pure d
          | e => P.throw e) st) = false := by
  unfold P.tryCatch
  cases h : x st with
  | ok r => rfl
  | error e =>
    cases e with
    | compile ce => cases ce <;> rfl
    | outOfFuel => rfl
    | panicked => rfl

/-- the top-level statement loop never produces the `NotFound` signal. -/
theorem isNotFoundResult_error (α β : Type) (e : PError) :
    @isNotFoundResult α (.error e) = @isNotFoundResult β (.error e) := by
  cases e with
  | compile ce => cases ce <;> rfl
  | outOfFuel => rfl
  | panicked => rfl

theorem programLoop_not_notFound (fuel : Nat) (acc : List Stmt) (st : PState) :
    isNotFoundResult ((parsers fuel).programLoop acc st) = false := by
  cases fuel with
  | zero => rfl
  | succ n =>
    show isNotFoundResult (programLoopBody (parsers n) acc st) = false
    unfold programLoopBody
    rw [bindP_def]
    cases h : (parsers n).skipNewlines false st with
    | ok r =>
      obtain ⟨b, st'⟩ := r
      dsimp only
      exact tryCatch_notFound_handler _ _ _
    | error e =>
      dsimp only
      have hs := skipNewlines_not_notFound n false st
      rw [h] at hs
      rw [isNotFoundResult_error _ (Bool × PState)]
      exact hs

/-- C3 (amended): the internal `NotFound` signal indeed never escapes
`parse_program` — for every fuel bound and every input, the parse result is
never the `NotFound` error. However, `parse_program` does not guarantee
that the whole stream is consumed: a (first or later) token that starts no
statement production merely ends the loop, so such input is accepted as the
(possibly empty) program parsed so far — e.g. `let x = 1\n)` parses
successfully to a one-statement program, with `)` left unconsumed. -/
theorem c3_notfound_never_surfaces :
    (∀ (fuel : Nat) (src : List Char),
      isNotFoundResult (parseProgramChars fuel src) = false) ∧
    (∃ i e, parseProgram 30 "let x = 1\n)" = .ok [Stmt.Initialize i e] ∧
      i.lexeme = "x" ∧ e.strip = mkLit "1") := by
  constructor
  · intro fuel src
    unfold parseProgramChars
    cases h : (parsers fuel).programLoop [] { lexer := Lexer.newChars src, rexp_nesting_level := 0 } with
    | ok r => rfl
    | error e =>
      dsimp only
      have hs := programLoop_not_notFound fuel [] { lexer := Lexer.newChars src, rexp_nesting_level := 0 }
      rw [h] at hs
      rw [isNotFoundResult_error _ (List Stmt × PState)]
      exact hs
  · exact ⟨_, _, rfl, rfl, rfl⟩

/-- C2 (amended): `register_symbol` always assigns the next slot of its own
`Env` — offset exactly `current_rbp_offset + 8` — and advances that
allocator by 8, so along a single `Env` the offsets of successive bindings
strictly increase and never repeat; a child scope built by `with_tail`
starts from the parent's current offset (and, as the counterexample shows,
the parent's allocator is not advanced by the child's registrations, so
offsets are reused across distinct nested blocks). -/
theorem c2_frame_offsets_amended :
    (∀ (f : Frame) (lexeme : String) (sz : Nat) (init : Bool),
      (f.register_symbol lexeme sz init).current_rbp_offset = f.current_rbp_offset + 8 ∧
      (f.register_symbol lexeme sz init).local_symbol lexeme =
        some ⟨decorateName lexeme (f.get_shadow_count lexeme + 1), sz,
              f.current_rbp_offset + 8, init⟩) ∧
    (∀ (regs : List (String × Bool)) (f : Frame),
      (regs.foldl (fun fr r => fr.register_symbol r.1 8 r.2) f).current_rbp_offset
        = f.current_rbp_offset + 8 * regs.length) ∧
    (∀ (f0 : Frame) (rest : List Frame),
      withTail (f0 :: rest) =
        { Frame.new with current_rbp_offset := f0.current_rbp_offset } :: f0 :: rest) := by
  refine ⟨?_, ?_, ?_⟩
  · intro f lexeme sz init
    constructor
    · rfl
    · simp [Frame.register_symbol, Frame.local_symbol, Frame.get_shadow_count,
        insertAssoc, lookupAssoc]
  · intro regs
    induction regs with
    | nil => intro f; simp
    | cons r rest ih =>
      intro f
      rw [List.foldl_cons, ih]
      show f.current_rbp_offset + 8 + 8 * rest.length = _
      simp [List.length_cons]
      ring
  · intro f0 rest
    rfl

/-- C7: after a full expression followed by `=`, the statement becomes an
`Assign` exactly when the parsed expression is a bare identifier
(`LExp::try_from` succeeds precisely on `RExp::Term(Term::LExp(_))`, and
otherwise hands back the offending expression, which
`assign_stmt_or_rexp` wraps in the user-visible `RExpOnLHS` error):
`x = 5` parses as an assignment, while a literal, a negation, a
parenthesized expression and a binary expression on the left of `=` all
fail with `RExpOnLHS` (not with a retry of another production). -/
theorem c7_assign_requires_bare_identifier :
    (∀ e : RExp, (∃ l, LExp.tryFromRExp e = .ok l) ↔ (∃ i, e = .Term (.LExp (.Ident i)))) ∧
    (∀ e : RExp, (∃ l, LExp.tryFromRExp e = .ok l) ∨ LExp.tryFromRExp e = .error e) ∧
    (∃ i e, parseProgram 30 "x = 5" = .ok [Stmt.Assign (.Ident i) e] ∧
      i.lexeme = "x" ∧ e.strip = mkLit "5") ∧
    (∃ e, parseProgram 30 "1 = 5" = .error (.compile (.RExpOnLHS e)) ∧
      e.strip = mkLit "1") ∧
    (∃ e, parseProgram 30 "-x = 5" = .error (.compile (.RExpOnLHS e)) ∧
      e.strip = .Term (.Neg (.LExp (.Ident (mkIdent "x"))))) ∧
    (∃ e, parseProgram 30 "(x) = 5" = .error (.compile (.RExpOnLHS e)) ∧
      e.strip = .Term (.Bracketed (mkVar "x"))) ∧
    (∃ e, parseProgram 30 "x + 1 = 5" = .error (.compile (.RExpOnLHS e)) ∧
      e.strip = .Add (mkVar "x") (mkLit "1")) := by
  refine ⟨?_, ?_, ⟨_, _, rfl, rfl, rfl⟩, ⟨_, rfl, rfl⟩, ⟨_, rfl, rfl⟩,
    ⟨_, rfl, rfl⟩, ⟨_, rfl, rfl⟩⟩
  · intro e
    constructor
    · rintro ⟨l, hl⟩
      cases e with
      | Term t =>
        cases t with
        | LExp l2 =>
          cases l2 with
          | Ident i => exact ⟨i, rfl⟩
        | IntLit i => simp [LExp.tryFromRExp] at hl
        | Neg t2 => simp [LExp.tryFromRExp] at hl
        | Bracketed e2 => simp [LExp.tryFromRExp] at hl
      | Add l r => simp [LExp.tryFromRExp] at hl
      | Sub l r => simp [LExp.tryFromRExp] at hl
      | Mul l r => simp [LExp.tryFromRExp] at hl
      | Div l r => simp [LExp.tryFromRExp] at hl
      | Equal l r => simp [LExp.tryFromRExp] at hl
      | NotEqual l r => simp [LExp.tryFromRExp] at hl
      | Less l r => simp [LExp.tryFromRExp] at hl
      | LessEqual l r => simp [LExp.tryFromRExp] at hl
      | Greater l r => simp [LExp.tryFromRExp] at hl
      | GreaterEqual l r => simp [LExp.tryFromRExp] at hl
    · rintro ⟨i, rfl⟩
      exact ⟨.Ident i, rfl⟩
  · intro e
    cases e with
    | Term t =>
      cases t with
      | LExp l2 => exact Or.inl ⟨l2, rfl⟩
      | IntLit i => exact Or.inr rfl
      | Neg t2 => exact Or.inr rfl
      | Bracketed e2 => exact Or.inr rfl
    | Add l r => exact Or.inr rfl
    | Sub l r => exact Or.inr rfl
    | Mul l r => exact Or.inr rfl
    | Div l r => exact Or.inr rfl
    | Equal l r => exact Or.inr rfl
    | NotEqual l r => exact Or.inr rfl
    | Less l r => exact Or.inr rfl
    | LessEqual l r => exact Or.inr rfl
    | Greater l r => exact Or.inr rfl
    | GreaterEqual l r => exact Or.inr rfl

/-- C9: when a scope's local decorated lookup misses, `get_symbol` recurses
to the enclosing chain and resolves there with each enclosing scope's own
newest shadow generation: a prefix of scopes that don't bind the name can
be dropped; a scope whose local decorated lookup hits supplies the result;
and the whole lookup is `none` exactly when every scope's local decorated
lookup misses. -/
theorem get_symbol_cons (f : Frame) (prev : List Frame) (name : String) :
    EnvChain.get_symbol (f :: prev) name =
      match f.local_symbol name with
      | some sym => some sym
      | none => EnvChain.get_symbol prev name := rfl

theorem c9_lookup_recurses_to_enclosing :
    (∀ (inner rest : List Frame) (name : String),
      (∀ fr ∈ inner, fr.local_symbol name = none) →
      EnvChain.get_symbol (inner ++ rest) name = EnvChain.get_symbol rest name) ∧
    (∀ (env : EnvChain) (name : String),
      env.get_symbol name = none ↔ ∀ fr ∈ env, fr.local_symbol name = none) ∧
    (∀ (f : Frame) (rest : List Frame) (name : String) (sym : CGSymbol),
      f.local_symbol name = some sym →
      EnvChain.get_symbol (f :: rest) name = some sym) := by
  refine ⟨?_, ?_, ?_⟩
  · intro inner
    induction inner with
    | nil => intro rest name _; rfl
    | cons f fs ih =>
      intro rest name h
      have hf : f.local_symbol name = none := h f (List.mem_cons_self f fs)
      show EnvChain.get_symbol ((f :: fs) ++ rest) name = _
      rw [List.cons_append, get_symbol_cons, hf]
      exact ih rest name (fun fr hfr => h fr (List.mem_cons_of_mem f hfr))
  · intro env name
    induction env with
    | nil => simp [EnvChain.get_symbol]
    | cons f fs ih =>
      rw [get_symbol_cons]
      cases hf : f.local_symbol name with
      | some sym => simp [hf]
      | none =>
        simp only [List.mem_cons]
        constructor
        · intro hnone fr hfr
          rcases hfr with rfl | hfr
          · exact hf
          · exact (ih.mp hnone) fr hfr
        · intro hall
          exact ih.mpr (fun fr hfr => hall fr (Or.inr hfr))
  · intro f rest name sym h
    rw [get_symbol_cons, h]

theorem c9_lookup_witness :
    EnvChain.get_symbol ([Frame.new] ++ [Frame.new.declare (mkIdent "x")]) "x"
      = EnvChain.get_symbol [Frame.new.declare (mkIdent "x")] "x" ∧
    (EnvChain.get_symbol [Frame.new] "x" = none ↔
      ∀ fr ∈ [Frame.new], fr.local_symbol "x" = none) ∧
    EnvChain.get_symbol [Frame.new.declare (mkIdent "x")] "x"
      = some ⟨"x_1", 8, 8, false⟩ :=
  ⟨c9_lookup_recurses_to_enclosing.1 [Frame.new] _ "x" (by decide),
   c9_lookup_recurses_to_enclosing.2.1 [Frame.new] "x",
   c9_lookup_recurses_to_enclosing.2.2 _ [] "x" _ (by decide)⟩

/-! Lemmas tracking `tokens` / `token_cursor` through one `consume`. -/

theorem consume_ch_tokens (lx : Lexer) :
    lx.consume_ch.tokens = lx.tokens ∧ lx.consume_ch.token_cursor = lx.token_cursor := by
  unfold Lexer.consume_ch
  cases lx.rest <;> exact ⟨rfl, rfl⟩

theorem try_consume_chars_tokens (cs : List Char) :
    ∀ (lx lx2 : Lexer), lx.try_consume_chars cs = some lx2 →
      lx2.tokens = lx.tokens ∧ lx2.token_cursor = lx.token_cursor := by
  induction cs with
  | nil => intro lx lx2 h; cases h; exact ⟨rfl, rfl⟩
  | cons c cs ih =>
    intro lx lx2 h
    unfold Lexer.try_consume_chars at h
    split at h
    · exact absurd h (by simp)
    · split at h
      · have h1 := consume_ch_tokens lx
        have h2 := ih _ _ h
        exact ⟨h2.1.trans h1.1, h2.2.trans h1.2⟩
      · exact absurd h (by simp)

theorem skip_ws_fuel_tokens (n : Nat) :
    ∀ lx : Lexer, (Lexer.skip_ws_fuel n lx).tokens = lx.tokens ∧
      (Lexer.skip_ws_fuel n lx).token_cursor = lx.token_cursor := by
  induction n with
  | zero => intro lx; exact ⟨rfl, rfl⟩
  | succ n ih =>
    intro lx
    unfold Lexer.skip_ws_fuel
    split
    · split
      · have h1 := consume_ch_tokens lx
        have h2 := ih lx.consume_ch
        exact ⟨h2.1.trans h1.1, h2.2.trans h1.2⟩
      · exact ⟨rfl, rfl⟩
    · exact ⟨rfl, rfl⟩

theorem take_chars_fuel_tokens (p : Char → Bool) (n : Nat) :
    ∀ (lx : Lexer) (acc : List Char),
      (Lexer.take_chars_fuel p n lx acc).2.tokens = lx.tokens ∧
      (Lexer.take_chars_fuel p n lx acc).2.token_cursor = lx.token_cursor := by
  induction n with
  | zero => intro lx acc; exact ⟨rfl, rfl⟩
  | succ n ih =>
    intro lx acc
    unfold Lexer.take_chars_fuel
    split
    · split
      · rename_i x c heq hp
        have h1 := consume_ch_tokens lx
        have h2 := ih lx.consume_ch (acc ++ [c])
        exact ⟨h2.1.trans h1.1, h2.2.trans h1.2⟩
      · exact ⟨rfl, rfl⟩
    · exact ⟨rfl, rfl⟩

theorem set_next_token_tokens (lx : Lexer) (tt : TokenType) :
    ∃ t, (lx.set_next_token tt).tokens = lx.tokens ++ [t] ∧
      (lx.set_next_token tt).token_cursor = lx.token_cursor + 1 :=
  ⟨_, rfl, rfl⟩

theorem try_mappings_tokens (ms : List (String × TokenType)) :
    ∀ (lx lx2 : Lexer), lx.try_mappings ms = some lx2 →
      ∃ t, lx2.tokens = lx.tokens ++ [t] ∧ lx2.token_cursor = lx.token_cursor + 1 := by
  induction ms with
  | nil => intro lx lx2 h; exact absurd h (by simp [Lexer.try_mappings])
  | cons m ms ih =>
    intro lx lx2 h
    unfold Lexer.try_mappings at h
    split at h
    · rename_i lxc hc
      cases h
      obtain ⟨h1, h2⟩ := try_consume_chars_tokens _ _ _ hc
      exact ⟨_, by rw [← h1]; rfl, by rw [← h2]; rfl⟩
    · exact ih lx lx2 h

theorem ident_or_keyword_tokens (lx : Lexer) :
    ∃ t, lx.ident_or_keyword.tokens = lx.tokens ++ [t] ∧
      lx.ident_or_keyword.token_cursor = lx.token_cursor + 1 := by
  obtain ⟨h1, h2⟩ := take_chars_fuel_tokens isIdentChar lx.rest.length lx []
  have h1' : (Lexer.take_chars isIdentChar lx).2.tokens = lx.tokens := h1
  have h2' : (Lexer.take_chars isIdentChar lx).2.token_cursor = lx.token_cursor := h2
  unfold Lexer.ident_or_keyword
  split
  rename_i pr chars lx2 heq
  have hl : lx2 = (Lexer.take_chars isIdentChar lx).2 := by rw [heq]
  dsimp only
  split <;>
    exact ⟨_, by show lx2.tokens ++ _ = _; rw [hl, h1'],
      by show lx2.token_cursor + 1 = _; rw [hl, h2']⟩

theorem int_literal_tokens (lx lx2 : Lexer) (h : lx.int_literal = .ok lx2) :
    ∃ t, lx2.tokens = lx.tokens ++ [t] ∧ lx2.token_cursor = lx.token_cursor + 1 := by
  rcases hd : Lexer.take_chars Char.isDigit lx with ⟨lexeme, lxA⟩
  rcases ha : Lexer.take_chars Char.isAlphanum lxA with ⟨ill, lxB⟩
  have hA1 : lxA.tokens = lx.tokens := by
    have := (take_chars_fuel_tokens Char.isDigit lx.rest.length lx []).1
    rw [show lxA = (Lexer.take_chars Char.isDigit lx).2 from by rw [hd]]
    exact this
  have hA2 : lxA.token_cursor = lx.token_cursor := by
    have := (take_chars_fuel_tokens Char.isDigit lx.rest.length lx []).2
    rw [show lxA = (Lexer.take_chars Char.isDigit lx).2 from by rw [hd]]
    exact this
  have hB1 : lxB.tokens = lxA.tokens := by
    have := (take_chars_fuel_tokens Char.isAlphanum lxA.rest.length lxA []).1
    rw [show lxB = (Lexer.take_chars Char.isAlphanum lxA).2 from by rw [ha]]
    exact this
  have hB2 : lxB.token_cursor = lxA.token_cursor := by
    have := (take_chars_fuel_tokens Char.isAlphanum lxA.rest.length lxA []).2
    rw [show lxB = (Lexer.take_chars Char.isAlphanum lxA).2 from by rw [ha]]
    exact this
  unfold Lexer.int_literal at h
  rw [hd] at h
  dsimp only at h
  rw [ha] at h
  dsimp only at h
  split at h
  · exact absurd h (by simp)
  · cases h
    obtain ⟨t, st1, st2⟩ := set_next_token_tokens lxB (.IntLiteral ⟨lexeme⟩)
    exact ⟨t, by rw [st1, hB1, hA1], by rw [st2, hB2, hA2]⟩

/-- shape of a successful `consume`: the cursor advances by exactly one,
and the token list either stays unchanged (replay of a buffered token) or
grows by exactly one freshly lexed token at the end. -/
theorem consume_ok_shape (lx lx2 : Lexer) (h : lx.consume = .ok lx2) :
    lx2.token_cursor = lx.token_cursor + 1 ∧
      (lx2.tokens = lx.tokens ∨ ∃ t, lx2.tokens = lx.tokens ++ [t]) := by
  have hw1 : lx.skip_whitespace.prepare_next_token.tokens = lx.tokens :=
    (skip_ws_fuel_tokens lx.rest.length lx).1
  have hw2 : lx.skip_whitespace.prepare_next_token.token_cursor = lx.token_cursor :=
    (skip_ws_fuel_tokens lx.rest.length lx).2
  unfold Lexer.consume at h
  split at h
  · cases h; exact ⟨rfl, Or.inl rfl⟩
  · dsimp only at h
    split at h
    · cases h
      obtain ⟨t, st1, st2⟩ := set_next_token_tokens lx.skip_whitespace.prepare_next_token .EndOfFile
      exact ⟨by rw [st2, hw2], Or.inr ⟨t, by rw [st1, hw1]⟩⟩
    · split at h
      · cases h
        rename_i lxm hm
        obtain ⟨t, h1, h2⟩ := try_mappings_tokens _ _ _ hm
        refine ⟨?_, Or.inr ⟨t, ?_⟩⟩
        · rw [h2, hw2]
        · rw [h1, hw1]
      · split at h
        · cases h
          obtain ⟨t, h1, h2⟩ := ident_or_keyword_tokens lx.skip_whitespace.prepare_next_token
          refine ⟨?_, Or.inr ⟨t, ?_⟩⟩
          · rw [h2, hw2]
          · rw [h1, hw1]
        · split at h
          · obtain ⟨t, h1, h2⟩ := int_literal_tokens _ _ h
            refine ⟨?_, Or.inr ⟨t, ?_⟩⟩
            · rw [h2, hw2]
            · rw [h1, hw1]
          · exact absurd h (by simp)

theorem rewind_tokens (lx : Lexer) : lx.rewind.tokens = lx.tokens := by
  unfold Lexer.rewind
  split <;> rfl

/-- C10: `rewind` moves the read cursor back exactly one token (and is a
silent no-op at the initial start-of-file position, cursor 0); therefore
after any successful `consume`, `rewind` restores `peek` to the token
`peek` returned before the `consume`. -/
theorem c10_rewind_undoes_consume (lx lx2 : Lexer)
    (hcur : lx.token_cursor < lx.tokens.length)
    (hc : lx.consume = .ok lx2) :
    lx2.rewind.peek = lx.peek ∧
    lx2.token_cursor = lx.token_cursor + 1 ∧
    lx2.rewind.token_cursor = lx.token_cursor ∧
    (∀ lx0 : Lexer, lx0.token_cursor = 0 → lx0.rewind = lx0) := by
  obtain ⟨h1, h2⟩ := consume_ok_shape _ _ hc
  have hnz : ¬ lx2.token_cursor ≤ 0 := by rw [h1]; omega
  have hrC : lx2.rewind.token_cursor = lx.token_cursor := by
    unfold Lexer.rewind
    rw [if_neg hnz, h1]
    show lx.token_cursor + 1 - 1 = lx.token_cursor
    omega
  refine ⟨?_, h1, hrC, ?_⟩
  · unfold Lexer.peek
    rw [rewind_tokens, hrC]
    cases h2 with
    | inl hsame => rw [hsame]
    | inr hgrow =>
      obtain ⟨t, ht⟩ := hgrow
      rw [ht, List.getD_append _ _ _ _ hcur]
  · intro lx0 h0
    unfold Lexer.rewind
    rw [if_pos (by omega)]

theorem c10_rewind_undoes_consume_witness :
    ∃ lx2, (Lexer.new "x 1").consume = .ok lx2 ∧
      lx2.rewind.peek = (Lexer.new "x 1").peek ∧
      lx2.token_cursor = (Lexer.new "x 1").token_cursor + 1 :=
  ⟨_, rfl, (c10_rewind_undoes_consume (Lexer.new "x 1") _ (by decide) rfl).1,
    (c10_rewind_undoes_consume (Lexer.new "x 1") _ (by decide) rfl).2.1⟩

theorem stmtLines_lines (ls : List String) :
    ∀ a : AsmS, (a.stmtLines ls).lines = a.lines ++ ls.map (fun s => "    " ++ s) := by
  induction ls with
  | nil => intro a; simp [AsmS.stmtLines]
  | cons s rest ih =>
    intro a
    show (AsmS.stmtLines (a.stmtLine s) rest).lines = _
    rw [ih]
    simp [AsmS.stmtLine]

theorem comment_class (s : String) :
    isPushLine ("    ; " ++ s) = false ∧ isPopLine ("    ; " ++ s) = false := by
  constructor <;>
  · simp only [isPushLine, isPopLine, decide_eq_false_iff_not]
    intro h
    rw [show ("    ; " ++ s).toList = "    ; ".toList ++ s.toList from rfl,
      List.take_append_eq_append_take] at h
    simp at h

theorem push_qword_class (t : String) :
    isPushLine ("    " ++ ("push qword [rbp-" ++ t ++ "]")) = true ∧
    isPopLine ("    " ++ ("push qword [rbp-" ++ t ++ "]")) = false := by
  constructor
  · simp only [isPushLine, decide_eq_true_eq]
    rw [show ("    " ++ ("push qword [rbp-" ++ t ++ "]")).toList
        = "    push qword [rbp-".toList ++ (t.toList ++ "]".toList) from rfl,
      List.take_append_eq_append_take]
    simp
  · simp only [isPopLine, decide_eq_false_iff_not]
    intro h
    rw [show ("    " ++ ("push qword [rbp-" ++ t ++ "]")).toList
        = "    push qword [rbp-".toList ++ (t.toList ++ "]".toList) from rfl,
      List.take_append_eq_append_take] at h
    simp at h

theorem mov_rax_class (s : String) :
    isPushLine ("    " ++ ("mov rax, " ++ s)) = false ∧
    isPopLine ("    " ++ ("mov rax, " ++ s)) = false := by
  constructor <;>
  · simp only [isPushLine, isPopLine, decide_eq_false_iff_not]
    intro h
    rw [show ("    " ++ ("mov rax, " ++ s)).toList
        = "    mov rax, ".toList ++ s.toList from rfl,
      List.take_append_eq_append_take] at h
    simp at h

theorem countPush_append (l1 l2 : List String) :
    countPush (l1 ++ l2) = countPush l1 + countPush l2 := List.countP_append _ _ _

theorem countPop_append (l1 l2 : List String) :
    countPop (l1 ++ l2) = countPop l1 + countPop l2 := List.countP_append _ _ _

theorem countPop_take_le (l : List String) (k : Nat) :
    countPop (l.take k) ≤ countPop l :=
  List.Sublist.countP_le _ (List.take_sublist k l)

theorem stackSafe_append_safe (d1 d2 : List String)
    (h1 : StackSafe d1) (h2 : StackSafe d2) : StackSafe (d1 ++ d2) := by
  intro n
  rw [List.take_append_eq_append_take, countPush_append, countPop_append]
  have ha := h1 n
  have hb := h2 (n - d1.length)
  have hc := h1 d1.length
  rw [List.take_length] at hc
  simp only [countPush, countPop] at *
  by_cases hn : n ≤ d1.length
  · rw [Nat.sub_eq_zero_of_le hn]
    simp only [List.take_zero, List.countP_nil]
    omega
  · push_neg at hn
    rw [List.take_of_length_le (le_of_lt hn)]
    omega

theorem stackSafe_append_total (d m : List String) (s : Nat)
    (hd : StackSafe d) (hnet : countPush d = countPop d + s)
    (hm : countPop m ≤ s) : StackSafe (d ++ m) := by
  intro n
  rw [List.take_append_eq_append_take, countPush_append, countPop_append]
  have ha := hd n
  have hb : countPop (m.take (n - d.length)) ≤ countPop m :=
    countPop_take_le m (n - d.length)
  simp only [countPush, countPop] at *
  by_cases hn : n ≤ d.length
  · rw [Nat.sub_eq_zero_of_le hn]
    simp only [List.take_zero, List.countP_nil]
    omega
  · push_neg at hn
    rw [List.take_of_length_le (le_of_lt hn)]
    omega

theorem concrete_line_classes :
    isPushLine "    " = false ∧ isPopLine "    " = false ∧
    isPushLine "    pop rbx" = false ∧ isPopLine "    pop rbx" = true ∧
    isPushLine "    pop rax" = false ∧ isPopLine "    pop rax" = true ∧
    isPushLine "    push rax" = true ∧ isPopLine "    push rax" = false ∧
    isPushLine "    neg rax" = false ∧ isPopLine "    neg rax" = false := by
  decide

theorem binaryOperator_delta (g : ExpGen) (be l r : RExp) (env : EnvChain) (a a' : AsmS)
    (ops : List String)
    (ihg : ∀ (e : RExp) (env2 : EnvChain) (b b' : AsmS), g.rexpFn e env2 b = .ok b' →
      ∃ d, b'.lines = b.lines ++ d ∧ countPush d = countPop d + 1 ∧ StackSafe d)
    (hpush : countPush (ops.map (fun s => "    " ++ s)) = 0)
    (hpop : countPop (ops.map (fun s => "    " ++ s)) = 0)
    (h : binaryOperator g be l r env a ops = .ok a') :
    ∃ d, a'.lines = a.lines ++ d ∧ countPush d = countPop d + 1 ∧ StackSafe d := by
  unfold binaryOperator at h
  cases h1 : g.rexpFn l env a with
  | error e => rw [h1] at h; exact absurd h (by simp)
  | ok a1 =>
    rw [h1] at h
    dsimp only at h
    cases h2 : g.rexpFn r env a1 with
    | error e => rw [h2] at h; exact absurd h (by simp)
    | ok a2 =>
      rw [h2] at h
      dsimp only at h
      injection h with h
      subst h
      obtain ⟨d1, hl1, hn1, hs1⟩ := ihg l env a a1 h1
      obtain ⟨d2, hl2, hn2, hs2⟩ := ihg r env a1 a2 h2
      have hcc := comment_class be.display
      obtain ⟨e1, e2, e3, e4, e5, e6, e7, e8, e9, e10⟩ := concrete_line_classes
      refine ⟨(d1 ++ d2) ++ (["    ", "    ; " ++ be.display, "    pop rbx", "    pop rax"]
        ++ ops.map (fun s => "    " ++ s) ++ ["    push rax"]), ?_, ?_, ?_⟩
      · show (AsmS.stmtLines _ ops).lines ++ _ = _
        rw [stmtLines_lines]
        simp [AsmS.stmtLine, AsmS.commentLine, hl1, hl2]
      · have hm1 : countPush ["    ", "    ; " ++ be.display, "    pop rbx", "    pop rax"] = 0 := by
          simp [countPush, List.countP_cons, e1, e3, e5, hcc.1]
        have hm2 : countPop ["    ", "    ; " ++ be.display, "    pop rbx", "    pop rax"] = 2 := by
          simp [countPop, List.countP_cons, e2, e4, e6, hcc.2]
        have hm3 : countPush ["    push rax"] = 1 := by simp [countPush, List.countP_cons, e7]
        have hm4 : countPop ["    push rax"] = 0 := by simp [countPop, List.countP_cons, e8]
        simp only [countPush_append, countPop_append, hpush, hpop, hm1, hm2, hm3, hm4]
        omega
      · apply stackSafe_append_total _ _ 2 (stackSafe_append_safe _ _ hs1 hs2)
        · rw [countPush_append, countPop_append]
          omega
        · have hm2 : countPop ["    ", "    ; " ++ be.display, "    pop rbx", "    pop rax"] = 2 := by
            simp [countPop, List.countP_cons, e2, e4, e6, hcc.2]
          have hm4 : countPop ["    push rax"] = 0 := by simp [countPop, List.countP_cons, e8]
          simp only [countPop_append, hpop, hm2, hm4]
          omega

theorem stackSafe_of_no_pops (d : List String) (h : countPop d = 0) : StackSafe d := by
  intro n
  have := countPop_take_le d n
  omega

/-- C4: the instruction sequence emitted for any expression has a net
runtime-stack effect of exactly one pushed value — among the emitted lines,
push instructions outnumber pop instructions by exactly one — and the
sequence is stack-safe: no prefix of it pops more values than the sequence
itself has pushed before that point (so no pop reaches below the values the
expression itself pushed). Stated for both `Asm::rexp` and `Asm::term`. -/
theorem c4_rexp_stack_discipline :
    ∀ fuel : Nat,
    (∀ (e : RExp) (env : EnvChain) (a a' : AsmS),
      (expGen fuel).rexpFn e env a = .ok a' →
      ∃ d, a'.lines = a.lines ++ d ∧ countPush d = countPop d + 1 ∧ StackSafe d) ∧
    (∀ (t : Term) (env : EnvChain) (a a' : AsmS),
      (expGen fuel).termFn t env a = .ok a' →
      ∃ d, a'.lines = a.lines ++ d ∧ countPush d = countPop d + 1 ∧ StackSafe d) := by
  intro fuel
  induction fuel with
  | zero =>
    exact ⟨fun e env a a' h => absurd h (by simp [expGen]),
      fun t env a a' h => absurd h (by simp [expGen])⟩
  | succ n ih =>
    obtain ⟨ihR, ihT⟩ := ih
    constructor
    · intro e env a a' h
      change rexpGenBody (expGen n) e env a = .ok a' at h
      cases e with
      | Term t => exact ihT t env a a' h
      | Add lhs rhs => exact binaryOperator_delta _ _ _ _ _ _ _ _ ihR (by decide) (by decide) h
      | Sub lhs rhs => exact binaryOperator_delta _ _ _ _ _ _ _ _ ihR (by decide) (by decide) h
      | Mul lhs rhs => exact binaryOperator_delta _ _ _ _ _ _ _ _ ihR (by decide) (by decide) h
      | Div lhs rhs => exact binaryOperator_delta _ _ _ _ _ _ _ _ ihR (by decide) (by decide) h
      | Equal lhs rhs => exact binaryOperator_delta _ _ _ _ _ _ _ _ ihR (by decide) (by decide) h
      | NotEqual lhs rhs => exact binaryOperator_delta _ _ _ _ _ _ _ _ ihR (by decide) (by decide) h
      | Less lhs rhs => exact binaryOperator_delta _ _ _ _ _ _ _ _ ihR (by decide) (by decide) h
      | LessEqual lhs rhs => exact binaryOperator_delta _ _ _ _ _ _ _ _ ihR (by decide) (by decide) h
      | Greater lhs rhs => exact binaryOperator_delta _ _ _ _ _ _ _ _ ihR (by decide) (by decide) h
      | GreaterEqual lhs rhs => exact binaryOperator_delta _ _ _ _ _ _ _ _ ihR (by decide) (by decide) h
    · intro t env a a' h
      change termGenBody (expGen n) t env a = .ok a' at h
      obtain ⟨e1, e2, e3, e4, e5, e6, e7, e8, e9, e10⟩ := concrete_line_classes
      cases t with
      | LExp l =>
        cases l with
        | Ident ident =>
          unfold termGenBody asmIdent at h
          dsimp only at h
          cases hsym : env.get_symbol ident.lexeme with
          | none => rw [hsym] at h; exact absurd h (by simp)
          | some sym =>
            rw [hsym] at h
            dsimp only at h
            injection h with h
            subst h
            have hcc := comment_class sym.decorated_lexeme
            have hq := push_qword_class (toString sym.rbp_offset)
            refine ⟨["    ", "    ; " ++ sym.decorated_lexeme,
              "    " ++ ("push qword [rbp-" ++ toString sym.rbp_offset ++ "]")], ?_, ?_, ?_⟩
            · simp [AsmS.stmtLine, AsmS.commentLine]
            · simp [countPush, countPop, List.countP_cons, e1, e2, hcc.1, hcc.2, hq.1, hq.2]
            · apply stackSafe_of_no_pops
              simp [countPop, List.countP_cons, e2, hcc.2, hq.2]
      | IntLit il =>
        unfold termGenBody asmIntlit at h
        dsimp only at h
        injection h with h
        subst h
        have hcc := comment_class il.lexeme
        have hm := mov_rax_class il.lexeme
        refine ⟨["    ", "    ; " ++ il.lexeme, "    " ++ ("mov rax, " ++ il.lexeme),
          "    push rax"], ?_, ?_, ?_⟩
        · simp [AsmS.stmtLine, AsmS.commentLine]
        · simp [countPush, countPop, List.countP_cons, e1, e2, e7, e8, hcc.1, hcc.2, hm.1, hm.2]
        · apply stackSafe_of_no_pops
          simp [countPop, List.countP_cons, e2, e8, hcc.2, hm.2]
      | Neg inner =>
        unfold termGenBody at h
        dsimp only at h
        cases h1 : (expGen n).termFn inner env a with
        | error e => rw [h1] at h; exact absurd h (by simp)
        | ok a1 =>
          rw [h1] at h
          dsimp only at h
          injection h with h
          subst h
          obtain ⟨dI, hlI, hnI, hsI⟩ := ihT inner env a a1 h1
          have hcc := comment_class (Term.display (.Neg inner))
          have hm2 : countPop ["    pop rax", "    ", "    ; " ++ Term.display (.Neg inner),
              "    neg rax", "    push rax"] = 1 := by
            simp [countPop, List.countP_cons, e2, e6, e8, e10, hcc.2]
          have hm1 : countPush ["    pop rax", "    ", "    ; " ++ Term.display (.Neg inner),
              "    neg rax", "    push rax"] = 1 := by
            simp [countPush, List.countP_cons, e1, e5, e7, e9, hcc.1]
          refine ⟨dI ++ ["    pop rax", "    ", "    ; " ++ Term.display (.Neg inner),
            "    neg rax", "    push rax"], ?_, ?_, ?_⟩
          · simp [AsmS.stmtLine, AsmS.commentLine, hlI]
          · simp only [countPush_append, countPop_append, hm1, hm2]
            omega
          · apply stackSafe_append_total _ _ 1 hsI (by omega)
            omega
      | Bracketed re => exact ihR re env a a' h


theorem c4_rexp_stack_discipline_witness :
    ∃ a' d, (expGen 5).rexpFn (RExp.Add (mkLit "1") (mkLit "2")) [] AsmS.default = .ok a' ∧
      a'.lines = AsmS.default.lines ++ d ∧ countPush d = countPop d + 1 ∧ StackSafe d := by
  obtain ⟨d, h1, h2, h3⟩ :=
    (c4_rexp_stack_discipline 5).1 (RExp.Add (mkLit "1") (mkLit "2")) [] AsmS.default _ rfl
  exact ⟨_, d, rfl, h1, h2, h3⟩

/-- C5: the six comparison operators all have precedence 1 and
right-associativity in `op_prec_and_assoc` (so `rexp_min_prec` recurses
with the same minimum precedence after consuming one), and consequently
`a < b < c` parses as `Less(a, Less(b, c))` for all operand tokens `a`,
`b`, `c` (any identifier or integer-literal tokens, fed to
`rexp_min_prec 0` as the upcoming token stream); in particular the source
text `1 < 2 < 3` parses that way. -/
theorem c5_comparisons_right_assoc :
    (op_prec_and_assoc .Equal = (1, .Right) ∧ op_prec_and_assoc .NotEqual = (1, .Right) ∧
     op_prec_and_assoc .Less = (1, .Right) ∧ op_prec_and_assoc .LessEqual = (1, .Right) ∧
     op_prec_and_assoc .Greater = (1, .Right) ∧ op_prec_and_assoc .GreaterEqual = (1, .Right)) ∧
    (∀ (ta tb tc : Token) (tta ttb ttc : Term),
      Term.fromToken ta = .ok tta → Term.fromToken tb = .ok ttb →
      Term.fromToken tc = .ok ttc →
      ∃ st, ((parsers 20).rexpMinPrec 0)
          { lexer := bufferedLexer [ta, opToken .Less, tb, opToken .Less, tc, opToken .NewLine],
            rexp_nesting_level := 0 }
        = .ok (RExp.Less (.Term tta) (.Less (.Term ttb) (.Term ttc)), st)) ∧
    (∃ e, parseProgram 30 "1 < 2 < 3" = .ok [Stmt.RExp e] ∧
      e.strip = RExp.Less (mkLit "1") (.Less (mkLit "2") (mkLit "3"))) := by
  refine ⟨⟨rfl, rfl, rfl, rfl, rfl, rfl⟩, ?_, ⟨_, rfl, rfl⟩⟩
  intro ta tb tc tta ttb ttc ha hb hc
  obtain ⟨fa, sa, ea, tya⟩ := ta
  obtain ⟨fb, sb, eb, tyb⟩ := tb
  obtain ⟨fc, sc, ec, tyc⟩ := tc
  cases tya <;> simp [Term.fromToken] at ha <;>
    cases tyb <;> simp [Term.fromToken] at hb <;>
      cases tyc <;> simp [Term.fromToken] at hc <;>
        subst ha <;> subst hb <;> subst hc <;> exact ⟨_, rfl⟩

theorem c5_comparisons_right_assoc_witness :
    ∃ st, ((parsers 20).rexpMinPrec 0)
        { lexer := bufferedLexer
            [{ file := none, start := Location.default, tokEnd := Location.default,
               tokentype := .IntLiteral "1" },
             opToken .Less,
             { file := none, start := Location.default, tokEnd := Location.default,
               tokentype := .IntLiteral "2" },
             opToken .Less,
             { file := none, start := Location.default, tokEnd := Location.default,
               tokentype := .IntLiteral "3" },
             opToken .NewLine],
          rexp_nesting_level := 0 }
      = .ok (RExp.Less (.Term (.IntLit ⟨none, Location.default, Location.default, "1"⟩))
          (.Less (.Term (.IntLit ⟨none, Location.default, Location.default, "2"⟩))
            (.Term (.IntLit ⟨none, Location.default, Location.default, "3"⟩))), st) :=
  c5_comparisons_right_assoc.2.1 _ _ _ _ _ _ rfl rfl rfl

/-- C8 counterexample: the round trip fails already for the one-statement
program `1`: its pretty-printed form is the debug dump
`Program {\nRExp(1)\n---…---\n}`, and re-parsing that text does not return
the original AST — it fails with `ExpectedNewline` at row 1, column 9 (the
`{` after the identifier `Program`). -/
theorem c8_roundtrip_fails :
    ∃ p s, parseProgram 40 "1" = .ok p ∧
      Program.display p = some s ∧
      parseProgram 40 s = .error (.compile (.ExpectedNewline ⟨1, 9⟩)) := by
  exact ⟨_, _, rfl, rfl, rfl⟩

set_option maxHeartbeats 4000000 in
/-- C8 (amended): pretty-printing a parsed `Program` with the `Display`
implementation never produces re-parseable source: every printed program
starts with the header `Program {` followed by a newline, and parsing any
text of that shape stops with an `ExpectedNewline` error at row 1,
column 9, whatever follows — so the parse-print-parse round trip fails for
every program (rather than holding for all of them, as claimed). -/
theorem c8_display_not_reparseable :
    (∀ (stmts : List Stmt) (s : String),
      Program.display stmts = some s → ∃ t, s = "Program \x7b\n" ++ t) ∧
    (∀ rest : List Char,
      parseProgramChars 20 ("Program \x7b\n".toList ++ rest)
        = .error (.compile (.ExpectedNewline ⟨1, 9⟩))) := by
  constructor
  · intro stmts s h
    unfold Program.display at h
    cases hr : Program.displayEntries stmts with
    | none => rw [hr] at h; exact absurd h (by simp [Option.bind])
    | some body =>
      rw [hr] at h
      simp only [Option.bind, Option.pure_def, Option.bind_eq_bind, Option.some_bind] at h
      refine ⟨body ++ "\x7d", ?_⟩
      have hs := (Option.some.injEq _ _).mp h
      rw [← hs, String.append_assoc]
  · intro rest
    rfl

theorem c8_display_not_reparseable_witness :
    (∃ t, ("Program \x7b\n\x7d" : String) = "Program \x7b\n" ++ t) ∧
    parseProgramChars 20 ("Program \x7b\n".toList ++ [])
      = .error (.compile (.ExpectedNewline ⟨1, 9⟩)) :=
  ⟨c8_display_not_reparseable.1 [] "Program \x7b\n\x7d" rfl,
   c8_display_not_reparseable.2 []⟩
